import Mathlib

/-!
# Scheduler: the scheduling engine of `tobg8/scheduler`

A shallow embedding of the Go sources under `usecases/register.go`,
`repositories/register.go`, `helpers/cron.go` and `models/scheduler.go`.

Modelling conventions

* `time.Time` is an absolute instant (nanoseconds since the Unix epoch, an
  unbounded `Int`) together with a location.  A location is a fixed offset
  from UTC, in seconds east of Greenwich (`time.UTC` is offset `0`,
  `time.FixedZone` is any other offset).  Locations with daylight-saving
  transitions are outside this model.
* `time.Duration` is a count of nanoseconds; `Time.Sub` saturates at the
  64-bit bounds as Go's does.
* `time.Now()` is a clock that is read from a sequence of readings: the
  `n`-th call returns `clock n`.  The process-wide `time.Local` location is
  the field `loc` of the `Env` record.
* Stateful code (repository calls, `time.AfterFunc`, `log.Printf`, the
  `cron.Cron` handle) is explicit state passing over `World`.
* A Go result `(T, error)` is the pair `T × Option Error`; `none` is `nil`.
-/

namespace Scheduler

/-! ## `time` : durations, instants, civil calendar -/

/-- A `time.Duration`: a signed count of nanoseconds. -/
abbrev Duration := Int

/-- The constant `time.Second`. -/
def Second : Duration := 1000000000

/-- The constant `time.Minute`. -/
def Minute : Duration := 60 * Second

/-- The constant `time.Hour`. -/
def Hour : Duration := 60 * Minute

/-- Smallest `time.Duration` (`math.MinInt64`). -/
def minDuration : Duration := -9223372036854775808

/-- Largest `time.Duration` (`math.MaxInt64`). -/
def maxDuration : Duration := 9223372036854775807

/-- A `time.Time`: `ns` nanoseconds since 1970-01-01T00:00:00Z, presented in the
fixed-offset location `loc` (seconds east of UTC). -/
structure Time where
  ns : Int
  loc : Int
  deriving DecidableEq, Repr

/-- Days since 1970-01-01 of the civil date `y-m-d` of the proleptic Gregorian
calendar, for `1 ≤ m ≤ 12`; `d` may lie outside the month, it is added
linearly as `time.Date` does when it normalises. -/
def daysFromCivil (y m d : Int) : Int :=
  let y1 := if m ≤ 2 then y - 1 else y
  let era := y1 / 400
  let yoe := y1 - era * 400
  let mp := if m ≤ 2 then m + 9 else m - 3
  let doy := (153 * mp + 2) / 5 + d - 1
  let doe := yoe * 365 + yoe / 4 - yoe / 100 + doy
  era * 146097 + doe - 719468

/-- Civil date `(year, month, day)` of the day that lies `z` days after
1970-01-01, in the proleptic Gregorian calendar. -/
def civilFromDays (z : Int) : Int × Int × Int :=
  let z1 := z + 719468
  let era := z1 / 146097
  let doe := z1 - era * 146097
  let yoe := (doe - doe / 1460 + doe / 36524 - doe / 146096) / 365
  let doy := doe - (365 * yoe + yoe / 4 - yoe / 100)
  let mp := (5 * doy + 2) / 153
  let d := doy - (153 * mp + 2) / 5 + 1
  let m := if mp < 10 then mp + 3 else mp - 9
  let y := yoe + era * 400
  (if m ≤ 2 then y + 1 else y, m, d)

namespace Time

/-- Seconds since the Unix epoch on the wall clock of the location of `t`. -/
def wallSeconds (t : Time) : Int := t.ns / Second + t.loc

/-- Day number (since 1970-01-01) of `t` on the wall clock of its location. -/
def wallDays (t : Time) : Int := t.wallSeconds / 86400

/-- `t.Year()`. -/
def Year (t : Time) : Int := (civilFromDays t.wallDays).1

/-- `t.Month()`, January is `1`. -/
def Month (t : Time) : Int := (civilFromDays t.wallDays).2.1

/-- `t.Day()`, the day of the month. -/
def Day (t : Time) : Int := (civilFromDays t.wallDays).2.2

/-- `t.Hour()`, in `0 .. 23`. -/
def Hour (t : Time) : Int := t.wallSeconds % 86400 / 3600

/-- `t.Minute()`, in `0 .. 59`. -/
def Minute (t : Time) : Int := t.wallSeconds % 3600 / 60

/-- `t.Second()`, in `0 .. 59`. -/
def Second (t : Time) : Int := t.wallSeconds % 60

/-- `t.Nanosecond()`, in `0 .. 999999999`. -/
def Nanosecond (t : Time) : Int := t.ns % Scheduler.Second

/-- `t.Weekday()`, Sunday is `0`; 1970-01-01 was a Thursday. -/
def Weekday (t : Time) : Int := (t.wallDays + 4) % 7

/-- `t.Location()`. -/
def Location (t : Time) : Int := t.loc

/-- `t.In(loc)`: the same instant presented in another location. -/
def In (t : Time) (loc : Int) : Time := { t with loc := loc }

/-- `t.UTC()`. -/
def UTC (t : Time) : Time := t.In 0

/-- `t.After(u)`. -/
def After (t u : Time) : Bool := decide (u.ns < t.ns)

/-- `t.Before(u)`. -/
def Before (t u : Time) : Bool := decide (t.ns < u.ns)

/-- `t.Add(d)`. -/
def Add (t : Time) (d : Duration) : Time := { t with ns := t.ns + d }

/-- `t.Sub(u)`: the duration `t - u`, saturated at the bounds of `Duration`. -/
def Sub (t u : Time) : Duration :=
  let d := t.ns - u.ns
  if d < minDuration then minDuration else if maxDuration < d then maxDuration else d

/-- `t.Truncate(d)`: `t` rounded down to a multiple of `d` since the zero time.
The zero time lies a whole number of days before the Unix epoch, so for the
divisors of a day used here the multiple may be counted from the epoch.  The
rounding acts on the absolute instant, not on the wall clock of the location. -/
def Truncate (t : Time) (d : Duration) : Time :=
  if d ≤ 0 then t else { t with ns := t.ns - t.ns % d }

end Time

/-- `time.Date(year, month, day, hour, min, sec, nsec, loc)`: the instant whose
wall clock in `loc` reads the given fields.  Out-of-range fields are
normalised: the month carries into the year, and days, hours, minutes,
seconds and nanoseconds are added linearly. -/
def Date (year month day hour min sec nsec : Int) (loc : Int) : Time :=
  let m0 := month - 1
  let y := year + m0 / 12
  let m := m0 % 12 + 1
  let days := daysFromCivil y m 1 + (day - 1)
  let wall := days * 86400 + hour * 3600 + min * 60 + sec
  { ns := (wall - loc) * Second + nsec, loc := loc }

namespace Time

/-- `t.AddDate(years, months, days)`: the fields of `t` in its location, with
the amounts added, passed through `Date`. -/
def AddDate (t : Time) (years months days : Int) : Time :=
  Date (t.Year + years) (t.Month + months) (t.Day + days)
    t.Hour t.Minute t.Second t.Nanosecond t.loc

end Time

/-- The zero `time.Time{}`: January 1, year 1, 00:00:00 UTC. -/
def zeroTime : Time := { ns := -62135596800 * Second, loc := 0 }

/-! ## `models` -/

/-- The errors of the program; the payload is the formatted message. -/
abbrev Error := String

/-- The struct `models.Task`. -/
structure Task where
  JobID : Int
  Action : String
  Args : List String
  deriving DecidableEq, Repr

/-- The struct `models.Job`. -/
structure Job where
  ID : Int
  Schedule : Time
  UserSchedule : String
  Occurrences : Int
  Label : String
  Frequency : String
  Workflow : List Task
  CreatedAt : Time
  CronTime : String
  IsOneTime : Bool
  deriving DecidableEq, Repr

/-- The zero value `models.Job{}`. -/
def Job.zero : Job :=
  { ID := 0, Schedule := zeroTime, UserSchedule := "", Occurrences := 0, Label := "",
    Frequency := "", Workflow := [], CreatedAt := zeroTime, CronTime := "", IsOneTime := false }

/-! ## `log` : the lines the engine prints, kept structured -/

/-- One `log.Printf` line of `usecases/register.go` or `repositories/register.go`. -/
inductive LogLine where
  | registering (id : Int)
  | couldNotRegister (e : Error)
  | rescheduled (label : String) (id : Int) (next : Time) (d : Duration)
  | scheduledToRun (id : Int) (at_ : Time) (d : Duration)
  | unsupportedFrequency (f : String)
  | scheduledEvery (id : Int) (f : String)
  | runJob (id : Int)
  | runTask (action : String) (jobID : Int)
  | couldNotDecrement (id : Int) (e : Error)
  | occurrencesDecrement (id : Int) (left : Int)
  | jobDeletion (id : Int)
  | couldNotDelete (id : Int) (e : Error)
  | received (label : String) (id : Int) (d : Duration) (f : String)
  deriving DecidableEq, Repr

/-! ## `usecases` : the schedule calculator -/

/-- The function `calculateNextValidSchedule` of `usecases/register.go`.
`currentTime` is the value its `time.Now()` call returned and `localLoc` is
the process-wide `time.Local`.  The second component is what it logs. -/
def calculateNextValidSchedule (localLoc : Int) (currentTime : Time) (j : Job) :
    Time × List LogLine :=
  let scheduledTime := j.Schedule
  let hour := scheduledTime.Hour
  let minute := scheduledTime.Minute
  let day := scheduledTime.Day
  let weekday := scheduledTime.Weekday
  let month := scheduledTime.Month
  if j.Frequency = "m" then
    let nextRun := (currentTime.Truncate Minute).Add Minute
    (nextRun.In localLoc, [])
  else if j.Frequency = "H" then
    let nextRun := ((currentTime.Truncate Hour).Add Hour).Add (minute * Minute)
    (nextRun.In localLoc, [])
  else if j.Frequency = "D" then
    let nextRun := Date currentTime.Year currentTime.Month currentTime.Day hour minute 0 0
      scheduledTime.Location
    let nextRun := if currentTime.After nextRun then nextRun.Add (24 * Hour) else nextRun
    (nextRun.In localLoc, [])
  else if j.Frequency = "W" then
    let nextRun := Date currentTime.Year currentTime.Month currentTime.Day hour minute 0 0
      scheduledTime.Location
    let nextRun :=
      if currentTime.Weekday > weekday ∨
          (currentTime.Weekday = weekday ∧ currentTime.After nextRun = true) then
        nextRun.AddDate 0 0 7
      else nextRun
    (nextRun.In localLoc, [])
  else if j.Frequency = "M" then
    let nextRun := Date currentTime.Year currentTime.Month day hour minute 0 0
      scheduledTime.Location
    let nextRun := if currentTime.After nextRun then nextRun.AddDate 0 1 0 else nextRun
    (nextRun.In localLoc, [])
  else if j.Frequency = "Y" then
    let nextRun := Date currentTime.Year month day hour minute 0 0 scheduledTime.Location
    let nextRun := if currentTime.After nextRun then nextRun.AddDate 1 0 0 else nextRun
    (nextRun.In localLoc, [])
  else
    (zeroTime, [LogLine.unsupportedFrequency j.Frequency])

/-! ## `helpers` : the recurrence expression mapper -/

/-- The function `GetCronFrequency` of `helpers/cron.go`; the job is passed by
pointer in the source, the updated job is returned here. -/
def GetCronFrequency (j : Job) : Job × Option Error :=
  if j.Frequency = "m" then ({ j with CronTime := "@every 1m" }, none)
  else if j.Frequency = "H" then ({ j with CronTime := "@hourly" }, none)
  else if j.Frequency = "D" then ({ j with CronTime := "@daily" }, none)
  else if j.Frequency = "W" then ({ j with CronTime := "@weekly" }, none)
  else if j.Frequency = "M" then ({ j with CronTime := "@monthly" }, none)
  else if j.Frequency = "Y" then ({ j with CronTime := "@yearly" }, none)
  else (j, some ("invalid frequency: " ++ j.Frequency))

/-! ## `github.com/robfig/cron` : the periodic trigger, at its interface -/

/-- A `*cron.Cron`: the specs of the entries installed on it (the command of
every entry is the `JobHandler` that owns the instance), whether its
scheduler loop is running, and how often `Start` and `Stop` were called. -/
structure Cron where
  entries : List String
  running : Bool
  startCalls : Nat
  stopCalls : Nat
  deriving DecidableEq, Repr

namespace Cron

/-- `cron.New()`. -/
def New : Cron := { entries := [], running := false, startCalls := 0, stopCalls := 0 }

/-- The descriptors `cron.Parse` accepts among the specs this program can
produce: the six expressions of `GetCronFrequency` are accepted, the empty
spec is rejected.  Field-based specs never reach `AddJob` here and are treated
as rejected. -/
def parseOK (spec : String) : Bool :=
  spec = "@every 1m" ∨ spec = "@hourly" ∨ spec = "@daily" ∨ spec = "@weekly" ∨
    spec = "@monthly" ∨ spec = "@yearly"

/-- `c.AddJob(spec, cmd)`: parses the spec and appends an entry. -/
def AddJob (c : Cron) (spec : String) : Cron × Option Error :=
  if parseOK spec then ({ c with entries := c.entries ++ [spec] }, none)
  else (c, some ("could not parse spec: " ++ spec))

/-- `c.Start()`: starts the scheduler loop unless it is running already. -/
def Start (c : Cron) : Cron := { c with running := true, startCalls := c.startCalls + 1 }

/-- `c.Stop()`: stops the scheduler loop if it is running. -/
def Stop (c : Cron) : Cron := { c with running := false, stopCalls := c.stopCalls + 1 }

end Cron

/-! ## `repositories` : the persistence gateway -/

/-- The interface `repositories.RegisterInterface`, over a storage state `σ`.
Every method returns its Go results and the storage it leaves behind. -/
structure RegisterInterface (σ : Type) where
  RegisterJob : Job → σ → (Int × Option Error) × σ
  RetrieveJob : Int → σ → (Job × Option Error) × σ
  DeleteJob : Int → σ → Option Error × σ
  DecrementJobOccurrences : Int → σ → (Int × Option Error) × σ
  RetrieveJobs : σ → (List Job × Option Error) × σ

/-- A method call on the `RegisterInterface` held by the usecase. -/
inductive RepoCall where
  | RegisterJob (j : Job)
  | RetrieveJob (id : Int)
  | DeleteJob (id : Int)
  | DecrementJobOccurrences (id : Int)
  | RetrieveJobs
  deriving DecidableEq, Repr

/-- Is the call the repository's insert operation `RegisterJob`? -/
def RepoCall.isInsert : RepoCall → Bool
  | .RegisterJob _ => true
  | _ => false

/-- A pending `time.AfterFunc(delay, func() { handleJob(&job, rr) })`. -/
structure Timer where
  delay : Duration
  job : Job
  deriving DecidableEq, Repr

/-- A call of the method `RegisterUsecase.RegisterJob`, with its arguments. -/
structure RegisterCall where
  job : Job
  timeUntilStart : Duration
  isReload : Bool
  deriving DecidableEq, Repr

/-- What the engine acts on: the storage behind the repository, the calls made
on the repository so far, the deferred triggers armed so far, the lines
logged so far, how many times the clock has been read, and the calls of the
usecase's `RegisterJob` so far. -/
structure World (σ : Type) where
  db : σ
  calls : List RepoCall
  timers : List Timer
  logs : List LogLine
  ticks : Nat
  registerCalls : List RegisterCall

/-- The process environment: the `time.Local` location and the clock, whose
`n`-th reading (in nanoseconds since the Unix epoch) is `clock n`. -/
structure Env where
  loc : Int
  clock : Nat → Int

namespace World

variable {σ : Type}

/-- `log.Printf` of one line. -/
def log (w : World σ) (l : LogLine) : World σ := { w with logs := w.logs ++ [l] }

/-- `time.Now()`. -/
def now (env : Env) (w : World σ) : Time × World σ :=
  ({ ns := env.clock w.ticks, loc := env.loc }, { w with ticks := w.ticks + 1 })

/-- `time.Until(t)`, that is `t.Sub(time.Now())`. -/
def timeUntil (env : Env) (t : Time) (w : World σ) : Duration × World σ :=
  (t.Sub (now env w).1, (now env w).2)

/-- Entry into the usecase's `RegisterJob(j, timeUntilStart, isReload)`. -/
def enterRegisterJob (w : World σ) (j : Job) (timeUntilStart : Duration) (isReload : Bool) :
    World σ :=
  { w with registerCalls := w.registerCalls ++
      [{ job := j, timeUntilStart := timeUntilStart, isReload := isReload }] }

/-- `time.AfterFunc(d, f)` where `f` hands `j` to `handleJob`. -/
def afterFunc (w : World σ) (d : Duration) (j : Job) : World σ :=
  { w with timers := w.timers ++ [{ delay := d, job := j }] }

/-- `rr.RegisterJob(j)` on the repository of the usecase. -/
def callRegisterJob (rr : RegisterInterface σ) (j : Job) (w : World σ) :
    (Int × Option Error) × World σ :=
  ((rr.RegisterJob j w.db).1,
    { w with db := (rr.RegisterJob j w.db).2, calls := w.calls ++ [RepoCall.RegisterJob j] })

/-- `rr.DeleteJob(id)` on the repository of the usecase. -/
def callDeleteJob (rr : RegisterInterface σ) (id : Int) (w : World σ) :
    Option Error × World σ :=
  ((rr.DeleteJob id w.db).1,
    { w with db := (rr.DeleteJob id w.db).2, calls := w.calls ++ [RepoCall.DeleteJob id] })

/-- `rr.DecrementJobOccurrences(id)` on the repository of the usecase. -/
def callDecrementJobOccurrences (rr : RegisterInterface σ) (id : Int) (w : World σ) :
    (Int × Option Error) × World σ :=
  ((rr.DecrementJobOccurrences id w.db).1,
    { w with db := (rr.DecrementJobOccurrences id w.db).2,
             calls := w.calls ++ [RepoCall.DecrementJobOccurrences id] })

/-- `rr.RetrieveJobs()` on the repository of the usecase. -/
def callRetrieveJobs (rr : RegisterInterface σ) (w : World σ) :
    (List Job × Option Error) × World σ :=
  ((rr.RetrieveJobs w.db).1,
    { w with db := (rr.RetrieveJobs w.db).2, calls := w.calls ++ [RepoCall.RetrieveJobs] })

end World

/-! ## `usecases` : registration, dispatch, run, reload -/

/-- The fields of `models.Job` a JSON body can set; `CronTime` and `IsOneTime`
carry the tag `json:"-"` and stay at their zero value when a body is decoded. -/
structure JobPayload where
  ID : Int
  Schedule : Time
  UserSchedule : String
  Occurrences : Int
  Label : String
  Frequency : String
  Workflow : List Task
  CreatedAt : Time
  deriving DecidableEq, Repr

/-- The `models.Job` that `json.NewDecoder(r.Body).Decode(&job)` leaves in `job`. -/
def JobPayload.toJob (p : JobPayload) : Job :=
  { ID := p.ID, Schedule := p.Schedule, UserSchedule := p.UserSchedule,
    Occurrences := p.Occurrences, Label := p.Label, Frequency := p.Frequency,
    Workflow := p.Workflow, CreatedAt := p.CreatedAt, CronTime := "", IsOneTime := false }

/-- The method `RegisterUsecase.ParseBody`.  `body` is `none` for a nil request
body and otherwise the outcome of decoding it; `parseInLocation` is
`time.ParseInLocation("02-01-2006 15:04", ·, location)`. -/
def ParseBody (parseInLocation : String → Option Time) (body : Option (Except Error JobPayload)) :
    Job × Option Error :=
  match body with
  | none => (Job.zero, some "empty request body")
  | some (Except.error err) => (Job.zero, some err)
  | some (Except.ok p) =>
    match parseInLocation p.toJob.UserSchedule with
    | none => (Job.zero, some "invalid schedule format; expected DD-MM-YYYY HH:MM")
    | some parsedTime =>
      ({ p.toJob with Schedule := parsedTime.UTC, IsOneTime := decide (p.toJob.Occurrences = 1) },
        none)

/-- The method `RegisterUsecase.VerifyDate`, `time.Until(t)` being read off the clock. -/
def VerifyDate {σ : Type} (env : Env) (t : Time) (w : World σ) :
    (Duration × Option Error) × World σ :=
  if (World.timeUntil env t w).1 < 0 then
    ((0, some "provided date is in past"), (World.timeUntil env t w).2)
  else (((World.timeUntil env t w).1, none), (World.timeUntil env t w).2)

/-- The method `RegisterUsecase.SetCronFrequency`. -/
def SetCronFrequency (j : Job) : Job × Option Error :=
  if j.Occurrences > 0 ∨ j.Occurrences = -1 then
    match GetCronFrequency j with
    | (_, some err) => (j, some err)
    | (j1, none) => (j1, none)
  else (j, none)

/-- The method `RegisterUsecase.RegisterJob`; the world records that it was
entered. -/
def RegisterJob {σ : Type} (rr : RegisterInterface σ) (j : Job) (timeUntilStart : Duration)
    (isReload : Bool) (w : World σ) : (Int × Option Error) × World σ :=
  if isReload = false then
    match World.callRegisterJob rr j (w.enterRegisterJob j timeUntilStart isReload) with
    | ((_, some err), w1) => ((0, some err), w1)
    | ((jobID, none), w1) =>
      if timeUntilStart > 0 then
        ((jobID, none), w1.afterFunc timeUntilStart { j with ID := jobID })
      else ((jobID, none), w1)
  else
    match SetCronFrequency j with
    | (_, some _) =>
      ((0, some "could not reset cron frequency"), w.enterRegisterJob j timeUntilStart isReload)
    | (j1, none) =>
      if timeUntilStart > 0 then
        ((j1.ID, none), (w.enterRegisterJob j timeUntilStart isReload).afterFunc timeUntilStart j1)
      else ((j1.ID, none), w.enterRegisterJob j timeUntilStart isReload)

/-- The method `RegisterUsecase.GetJobs`. -/
def GetJobs {σ : Type} (rr : RegisterInterface σ) (w : World σ) :
    (List Job × Option Error) × World σ :=
  match World.callRetrieveJobs rr w with
  | ((_, some err), w1) => (([], some err), w1)
  | ((jobs, none), w1) => ((jobs, none), w1)

/-- The body of the `for _, job := range jobs` loop of `ReloadJobs`, run over the
jobs that remain; `now` is the reading taken before the loop. -/
def reloadLoop {σ : Type} (env : Env) (rr : RegisterInterface σ) (now : Time) :
    List Job → World σ → Option Error × World σ
  | [], w => (none, w)
  | job :: rest, w =>
    if job.Schedule.Before now = true then
      let currentTime := (World.now env w).1
      let w1 := (World.now env w).2
      let nextSchedule := (calculateNextValidSchedule env.loc currentTime job).1
      let w2 : World σ :=
        { w1 with logs := w1.logs ++ (calculateNextValidSchedule env.loc currentTime job).2 }
      let timeUntilStart := (World.timeUntil env nextSchedule w2).1
      let w3 := (World.timeUntil env nextSchedule w2).2
      let job1 := { job with Schedule := nextSchedule.In env.loc }
      match SetCronFrequency job1 with
      | (_, some err) => (some ("could not set cron time on reload jobs: " ++ err), w3)
      | (job2, none) =>
        let w4 := w3.log (LogLine.rescheduled job2.Label job2.ID nextSchedule timeUntilStart)
        reloadLoop env rr now rest (RegisterJob rr job2 timeUntilStart true w4).2
    else
      let timeUntilStart := (World.timeUntil env job.Schedule w).1
      let w1 := (World.timeUntil env job.Schedule w).2
      let w2 := w1.log (LogLine.scheduledToRun job.ID (job.Schedule.In env.loc) timeUntilStart)
      reloadLoop env rr now rest (RegisterJob rr job timeUntilStart true w2).2

/-- The method `RegisterUsecase.ReloadJobs`. -/
def ReloadJobs {σ : Type} (env : Env) (rr : RegisterInterface σ) (w : World σ) :
    Option Error × World σ :=
  match GetJobs rr w with
  | ((_, some err), w1) => (some ("could not retrieve jobs: " ++ err), w1)
  | ((jobs, none), w1) => reloadLoop env rr (World.now env w1).1 jobs (World.now env w1).2

/-- The struct `JobHandler`; its repository is passed to the methods. -/
structure JobHandler where
  j : Job
  cs : Cron
  deriving DecidableEq, Repr

/-- The constructor `NewJobHandler`. -/
def NewJobHandler (j : Job) (cs : Cron) : JobHandler := { j := j, cs := cs }

/-- The method `JobHandler.Run`. -/
def JobHandler.Run {σ : Type} (rr : RegisterInterface σ) (h : JobHandler) (w : World σ) :
    JobHandler × World σ :=
  let w1 := w.log (LogLine.runJob h.j.ID)
  let w2 : World σ :=
    { w1 with logs := w1.logs ++ h.j.Workflow.map (fun v => LogLine.runTask v.Action v.JobID) }
  if h.j.Occurrences ≠ -1 then
    match World.callDecrementJobOccurrences rr h.j.ID w2 with
    | ((_, some err), w3) => (h, w3.log (LogLine.couldNotDecrement h.j.ID err))
    | ((occurrencesLeft, none), w3) =>
      let w4 := w3.log (LogLine.occurrencesDecrement h.j.ID occurrencesLeft)
      if occurrencesLeft = 0 then
        let w5 := w4.log (LogLine.jobDeletion h.j.ID)
        match World.callDeleteJob rr h.j.ID w5 with
        | (some err, w6) => (h, w6.log (LogLine.couldNotDelete h.j.ID err))
        | (none, w6) => ({ h with cs := h.cs.Stop }, w6)
      else (h, w4)
  else (h, w2)

/-- The function `handleJob`: what a deferred trigger does when it fires.  The
handler it returns is the one the periodic trigger, if installed, keeps
invoking. -/
def handleJob {σ : Type} (rr : RegisterInterface σ) (j : Job) (w : World σ) :
    Option Error × JobHandler × World σ :=
  let job := NewJobHandler j Cron.New
  let job1 := (job.Run rr w).1
  let w1 := (job.Run rr w).2
  if j.IsOneTime = false then
    match job1.cs.AddJob j.CronTime with
    | (_, some err) => (some err, job1, w1)
    | (cs1, none) =>
      (none, { job1 with cs := cs1.Start }, w1.log (LogLine.scheduledEvery j.ID j.Frequency))
  else (none, job1, w1)

/-- A firing of the periodic trigger owned by the handler: the scheduler loop
invokes `Run` on its entry when it is running and has one, and does nothing
otherwise. -/
def cronFire {σ : Type} (rr : RegisterInterface σ) (h : JobHandler) (w : World σ) :
    JobHandler × World σ :=
  if h.cs.running = true ∧ h.cs.entries ≠ [] then h.Run rr w else (h, w)

/-! ## `strings` : joining and splitting the arguments of a task -/

/-- The pieces of a sequence of characters between the occurrences of `sep`;
`cur` holds, reversed, the characters of the piece being read. -/
def splitChar (sep : Char) (cur : List Char) : List Char → List (List Char)
  | [] => [cur.reverse]
  | c :: cs => if c = sep then cur.reverse :: splitChar sep [] cs else splitChar sep (c :: cur) cs

/-- `strings.Split(s, sep)` for a separator `sep` of one character: the substrings
of `s` between the separators; a string without separator, the empty one
included, gives the one-element list of itself. -/
def stringsSplit (s : String) (sep : Char) : List String :=
  (splitChar sep [] s.data).map String.mk

/-- `strings.Join(elems, sep)`. -/
def stringsJoin (elems : List String) (sep : String) : String := String.intercalate sep elems

/-! ## `repositories` : the SQLite-backed `RegisterRepository`

The Go methods are under `repositories/register.go`; the SQL texts they embed
(`queries/*.sql`) and the schema (`database/table_creation.sql`) are not part
of the sources at hand.  What each statement does to the tables is modelled
from the contract of the persistence gateway in the specification; driver
failures (a lost connection, a failed commit) are left to the abstract
`RegisterInterface`, the model below never fails for such a reason. -/

/-- A row of the jobs table. -/
structure JobRow where
  id : Int
  schedule : Time
  user_schedule : String
  occurrences : Int
  frequency : String
  label : String
  cron_time : String
  created_at : Time
  deriving DecidableEq, Repr

/-- A row of the tasks table. -/
structure TaskRow where
  job_id : Int
  action : String
  args : String
  deriving DecidableEq, Repr

/-- The database: both tables, the last row id handed out for a job, and the
timestamp the database stamps on a new row. -/
structure DB where
  jobs : List JobRow
  tasks : List TaskRow
  lastID : Int
  currentTimestamp : Time
  deriving DecidableEq, Repr

/-- A row of the result of the job/task join: the job columns and the task
columns, which are NULL for a job without tasks. -/
structure JoinedRow where
  id : Int
  schedule : Time
  user_schedule : String
  occurrences : Int
  frequency : String
  label : String
  created_at : Time
  action : Option String
  args : Option String
  deriving DecidableEq, Repr

namespace DB

/-- Modelled from the spec: the statement `queries/insert_job.sql` is missing;
`insertJobWithTasks(job) -> id` stores the job under a fresh identifier, the
next row id, with `created_at` assigned by the database. -/
def insertJob (db : DB) (schedule : Time) (userSchedule : String) (occurrences : Int)
    (frequency label cronTime : String) : Int × DB :=
  (db.lastID + 1,
    { db with
      jobs := db.jobs ++ [{ id := db.lastID + 1, schedule := schedule,
                            user_schedule := userSchedule, occurrences := occurrences,
                            frequency := frequency, label := label, cron_time := cronTime,
                            created_at := db.currentTimestamp }],
      lastID := db.lastID + 1 })

/-- Modelled from the spec: the statement `queries/insert_tasks.sql` is missing;
it stores one task of the job being inserted. -/
def insertTask (db : DB) (jobID : Int) (action args : String) : DB :=
  { db with tasks := db.tasks ++ [{ job_id := jobID, action := action, args := args }] }

/-- Modelled from the spec: the statement `queries/update_job_occurences.sql` is
missing; `decrementOccurrences(id) -> remaining_count | NotFound` is one atomic
read-modify-write keyed by the job identifier that lowers the stored count by
one and returns what remains, and returns no row for an unknown identifier. -/
def decrementOccurrences (db : DB) (id : Int) : Option Int × DB :=
  match db.jobs.find? (fun r => decide (r.id = id)) with
  | none => (none, db)
  | some r =>
    (some (r.occurrences - 1),
      { db with jobs := db.jobs.map (fun r =>
          if r.id = id then { r with occurrences := r.occurrences - 1 } else r) })

/-- Modelled from the spec: the statement `queries/delete_job_by_id.sql` is
missing; `deleteJob(id)` removes the job, and its tasks with it, from storage.
Deleting an identifier that is not stored is not an error of the statement. -/
def deleteJob (db : DB) (id : Int) : DB :=
  { db with jobs := db.jobs.filter (fun r => decide (r.id ≠ id)),
            tasks := db.tasks.filter (fun t => decide (t.job_id ≠ id)) }

/-- The joined rows of one job: one per task, or a single row with NULL task
columns when the job has none. -/
def joinJob (db : DB) (r : JobRow) : List JoinedRow :=
  match db.tasks.filter (fun t => decide (t.job_id = r.id)) with
  | [] => [{ id := r.id, schedule := r.schedule, user_schedule := r.user_schedule,
             occurrences := r.occurrences, frequency := r.frequency, label := r.label,
             created_at := r.created_at, action := none, args := none }]
  | t :: ts => (t :: ts).map (fun t =>
      { id := r.id, schedule := r.schedule, user_schedule := r.user_schedule,
        occurrences := r.occurrences, frequency := r.frequency, label := r.label,
        created_at := r.created_at, action := some t.action, args := some t.args })

/-- Modelled from the spec: the statement `queries/get_jobs.sql` is missing;
`listAllJobs() -> set of job+tasks` returns every job with its tasks, here as
the rows of the join the Go code scans. -/
def getJobs (db : DB) : List JoinedRow := (db.jobs.map db.joinJob).flatten

/-- Modelled from the spec: the statement `queries/get_job_by_id.sql` is missing;
`getJob(id) -> job+tasks | NotFound` returns the joined rows of one job. -/
def getJob (db : DB) (id : Int) : List JoinedRow :=
  db.getJobs.filter (fun r => decide (r.id = id))

end DB

namespace RegisterRepository

/-- The method `RegisterRepository.RegisterJob`: the job row, then one task row
per task of the workflow with its arguments joined by `","`, in one
transaction.  `localLoc` is `time.Local`. -/
def RegisterJob (localLoc : Int) (j : Job) (db : DB) : (Int × Option Error) × DB :=
  let inserted := db.insertJob (j.Schedule.In localLoc) j.UserSchedule j.Occurrences j.Frequency
    j.Label j.CronTime
  let jobID := inserted.1
  ((jobID, none),
    j.Workflow.foldl (fun d v => d.insertTask jobID v.Action (stringsJoin v.Args ","))
      inserted.2)

/-- The `models.Job` and `models.Task` scanned from one joined row. -/
def scanRow (row : JoinedRow) : Job × Task :=
  ({ Job.zero with ID := row.id, Schedule := row.schedule, UserSchedule := row.user_schedule,
                   Occurrences := row.occurrences, Frequency := row.frequency,
                   Label := row.label, CreatedAt := row.created_at },
    { JobID := row.id, Action := row.action.getD "", Args := stringsSplit (row.args.getD "") ',' })

/-- The method `RegisterRepository.RetrieveJob`. -/
def RetrieveJob (id : Int) (db : DB) : (Job × Option Error) × DB :=
  let j := (db.getJob id).foldl (fun (j : Job) row =>
    let j1 := { (scanRow row).1 with Workflow := j.Workflow, CronTime := j.CronTime,
                                     IsOneTime := j.IsOneTime }
    if row.action.isSome then { j1 with Workflow := j1.Workflow ++ [(scanRow row).2] } else j1)
    Job.zero
  if j.Workflow.length = 0 then
    ((Job.zero, some ("no job found with id: " ++ toString id)), db)
  else ((j, none), db)

/-- The method `RegisterRepository.DeleteJob`. -/
def DeleteJob (id : Int) (db : DB) : Option Error × DB := (none, db.deleteJob id)

/-- The method `RegisterRepository.DecrementJobOccurrences`. -/
def DecrementJobOccurrences (id : Int) (db : DB) : (Int × Option Error) × DB :=
  match db.decrementOccurrences id with
  | (none, db1) => ((0, some ("no job found with id: " ++ toString id)), db1)
  | (some occurrencesLeft, db1) => ((occurrencesLeft, none), db1)

/-- One iteration of the `for rows.Next()` loop of `RetrieveJobs` on the map
from job identifier to job, kept as the list of its entries in the order the
keys were first seen. -/
def retrieveStep (jobMap : List (Int × Job)) (row : JoinedRow) : List (Int × Job) :=
  if jobMap.any (fun e => decide (e.1 = row.id)) = true then
    if row.action.isSome = true then
      jobMap.map (fun e =>
        if e.1 = row.id then (e.1, { e.2 with Workflow := e.2.Workflow ++ [(scanRow row).2] })
        else e)
    else jobMap
  else
    if row.action.isSome = true then
      jobMap ++ [(row.id, { (scanRow row).1 with Workflow := [(scanRow row).2] })]
    else jobMap ++ [(row.id, (scanRow row).1)]

/-- The method `RegisterRepository.RetrieveJobs`.  Go ranges over its map in an
unspecified order; the jobs are listed here in the order their identifiers
first appear among the rows. -/
def RetrieveJobs (db : DB) : (List Job × Option Error) × DB :=
  (((db.getJobs.foldl retrieveStep []).map (fun e => e.2), none), db)

end RegisterRepository

/-- The constructor `NewRegisterRepository`: the SQLite-backed implementation of
the interface, in a process whose `time.Local` is `localLoc`. -/
def NewRegisterRepository (localLoc : Int) : RegisterInterface DB :=
  { RegisterJob := RegisterRepository.RegisterJob localLoc
    RetrieveJob := RegisterRepository.RetrieveJob
    DeleteJob := RegisterRepository.DeleteJob
    DecrementJobOccurrences := RegisterRepository.DecrementJobOccurrences
    RetrieveJobs := RegisterRepository.RetrieveJobs }

/-! ## Executions -/

/-- The closure `RegisterJob` hands to `time.AfterFunc`, run when the deferred
trigger fires. -/
def Timer.fire {σ : Type} (rr : RegisterInterface σ) (t : Timer) (w : World σ) :
    JobHandler × World σ :=
  let w1 := w.log (LogLine.registering t.job.ID)
  match handleJob rr t.job w1 with
  | (some err, h, w2) => (h, w2.log (LogLine.couldNotRegister err))
  | (none, h, w2) => (h, w2)

/-- The handler and the world after `k` consecutive executions of `Run`. -/
def runTimes {σ : Type} (rr : RegisterInterface σ) :
    Nat → JobHandler → World σ → JobHandler × World σ
  | 0, h, w => (h, w)
  | k + 1, h, w => (runTimes rr k h w).1.Run rr (runTimes rr k h w).2

/-- The stored row of the job `id`, if there is one. -/
def DB.findJob (db : DB) (id : Int) : Option JobRow :=
  db.jobs.find? (fun r => decide (r.id = id))

/-- A world in which nothing has happened yet, over the storage `db`. -/
def World.init {σ : Type} (db : σ) : World σ :=
  { db := db, calls := [], timers := [], logs := [], ticks := 0, registerCalls := [] }

/-! ## `path/filepath` and `strings`, as far as the validations use them

Strings are taken as sequences of characters; the separator `/` and the dot
are single bytes that occur in no other character's encoding, so for the
well-formed strings a decoded request carries this is the byte-wise
behaviour of the Go functions. -/

/-- The elements of a path between its separators `/`; `cur` holds, reversed,
the characters of the element being read. -/
def splitSlash (cur : List Char) : List Char → List (List Char)
  | [] => [cur.reverse]
  | c :: cs => if c = '/' then cur.reverse :: splitSlash [] cs else splitSlash (c :: cur) cs

/-- One element in the loop of `filepath.Clean`; `out` is the stack of the
elements kept so far, last one first.  Empty elements and `.` are dropped; `..`
removes the element before it, is dropped at the root of a rooted path, and
is kept at the start of a path that is not rooted. -/
def cleanStep (rooted : Bool) (out : List (List Char)) (c : List Char) : List (List Char) :=
  if c = [] ∨ c = ['.'] then out
  else if c = ['.', '.'] then
    match out with
    | [] => if rooted then [] else [c]
    | top :: rest => if top = ['.', '.'] then c :: top :: rest else rest
  else c :: out

/-- `filepath.Clean(path)` on a system whose separator is `/`. -/
def filepathClean (path : String) : String :=
  if path = "" then "."
  else
    let rooted := decide (path.data.head? = some '/')
    let out := ((splitSlash [] path.data).foldl (cleanStep rooted) []).reverse
    let body := String.intercalate "/" (out.map String.mk)
    let cleaned := if rooted then "/" ++ body else body
    if cleaned = "" then "." else cleaned

/-- `filepath.Join(elem...)`: the elements from the first non-empty one on,
joined by the separator and cleaned; the empty string when there is none. -/
def filepathJoin (elem : List String) : String :=
  match elem.dropWhile (fun e => decide (e = "")) with
  | [] => ""
  | e :: es => filepathClean (String.intercalate "/" (e :: es))

/-- `strings.HasPrefix(s, pre)`. -/
def HasPrefix (s pre : String) : Bool := pre.data.isPrefixOf s.data

/-! ## `helpers/validations` -/

/-- The function `IsMethodAllowed`. -/
def IsMethodAllowed (rMethod method : String) : Option Error :=
  if rMethod = method then none
  else some ("invalid method " ++ rMethod ++ ", accepted method is " ++ method)

/-- The function `IsValidOccurrences`. -/
def IsValidOccurrences (i : Int) : Option Error :=
  if i ≥ 1 ∨ i = -1 then none else some ("invalid occurence: " ++ toString i)

/-- The map literal `validFrequencies` of `IsValidFrequency`. -/
def validFrequencies : List (String × Bool) :=
  [("W", true), ("M", true), ("D", true), ("H", true), ("m", true), ("Y", true)]

/-- The function `IsValidFrequency`; a key the map lacks reads as `false`. -/
def IsValidFrequency (f : String) : Option Error :=
  if ((validFrequencies.lookup f).getD false) = false then some ("invalid frequency: " ++ f)
  else none

/-- The struct `models.TaskHandler`; a nil function is `none`. -/
structure TaskHandler where
  Execute : Option (List String → Option Error)
  Verify : List String → Option Error

/-- The function `validateDeployArgs`. -/
def validateDeployArgs (args : List String) : Option Error :=
  match args with
  | [serviceName, deploymentPath] =>
    if HasPrefix deploymentPath (filepathJoin ["/home/apps", serviceName]) = false then
      some ("invalid deployment path: expected '" ++ filepathJoin ["/home/apps", serviceName] ++
        "', got '" ++ deploymentPath ++ "'")
    else none
  | _ => some "invalid number of arguments: expected service name and deployment path"

/-- The map `Tasks`: every task available to the scheduler. -/
def Tasks : List (String × TaskHandler) :=
  [("deploy", { Execute := none, Verify := validateDeployArgs })]

/-- The function `IsValidAction`. -/
def IsValidAction (t : Task) : Option Error :=
  match Tasks.lookup t.Action with
  | none => some ("task " ++ t.Action ++ " does not exist")
  | some action =>
    match action.Verify t.Args with
    | some err => some ("could not verify task " ++ t.Action ++ " : " ++ err)
    | none => none

/-- The method `RegisterUsecase.ValidateJob`. -/
def ValidateJob (j : Job) : Option Error :=
  match IsValidFrequency j.Frequency with
  | some err => some err
  | none =>
    match IsValidOccurrences j.Occurrences with
    | some err => some err
    | none =>
      match j.Workflow.findSome? IsValidAction with
      | some err => some err
      | none => if j.Label = "" then some "please provide label to the job" else none

/-- The method `RegisterUsecase.CleanPayload`; `time.Now()` is read off the clock. -/
def CleanPayload {σ : Type} (env : Env) (j : Job) (id : Int) (w : World σ) : Job × World σ :=
  ({ j with CronTime := "", ID := id, CreatedAt := (World.now env w).1,
            Workflow := j.Workflow.map (fun t => { t with JobID := id }) },
    (World.now env w).2)

/-! ## `controllers` -/

/-- What `Register` reads of the `*http.Request`: its method, and its body, `none`
when nil and otherwise the outcome of decoding it. -/
structure Request where
  Method : String
  Body : Option (Except Error JobPayload)

/-- The struct `models.Response` that `jsonResponse` writes, with its status. -/
structure Response where
  Message : String
  Status : Int
  Data : Option Job
  deriving DecidableEq, Repr

/-- The function `SendResponseMessage`. -/
def SendResponseMessage (status : Int) (message : String) : Response :=
  { Message := message, Status := status, Data := none }

/-- The function `SendResponseData`. -/
def SendResponseData (status : Int) (data : Job) : Response :=
  { Message := "", Status := status, Data := some data }

/-- The job a deferred trigger holds shares the array of its workflow with the
job of the handler that registered it: what `CleanPayload` writes into the
tasks shows in the trigger armed last. -/
def World.shareWorkflow {σ : Type} (w : World σ) (workflow : List Task) : World σ :=
  match w.timers.reverse with
  | [] => w
  | t :: ts =>
    { w with timers := (({ t with job := { t.job with Workflow := workflow } }) :: ts).reverse }

/-- The method `RegisterController.Register`: the response it sends and the world
it leaves. -/
def RegisterController.Register {σ : Type} (env : Env) (parseInLocation : String → Option Time)
    (rr : RegisterInterface σ) (r : Request) (w : World σ) : Response × World σ :=
  match IsMethodAllowed r.Method "POST" with
  | some _ =>
    (SendResponseMessage 405 ("invalid method: " ++ r.Method ++ ", POST method allowed only"), w)
  | none =>
    match ParseBody parseInLocation r.Body with
    | (_, some err) => (SendResponseMessage 400 ("could not parse body: " ++ err), w)
    | (job, none) =>
      match ValidateJob job with
      | some err => (SendResponseMessage 400 ("could not validate body: " ++ err), w)
      | none =>
        match VerifyDate env job.Schedule w with
        | ((_, some err), w1) => (SendResponseMessage 400 ("date is invalid: " ++ err), w1)
        | ((tul, none), w1) =>
          match SetCronFrequency job with
          | (_, some err) =>
            (SendResponseMessage 500 ("could not create cron frequency: " ++ err), w1)
          | (job1, none) =>
            match RegisterJob rr job1 tul false w1 with
            | ((_, some err), w2) =>
              (SendResponseMessage 500 ("could not register job: " ++ err), w2)
            | ((jobID, none), w2) =>
              let job2 := (CleanPayload env job1 jobID w2).1
              let w3 := (CleanPayload env job1 jobID w2).2
              let w4 := if tul > 0 then w3.shareWorkflow job2.Workflow else w3
              let w5 := (World.timeUntil env job2.Schedule w4).2.log
                (LogLine.received job2.Label jobID (World.timeUntil env job2.Schedule w4).1
                  job2.Frequency)
              (SendResponseData 200 job2, w5)

/-! ## Concrete inputs -/

/-- Monday 2024-01-08, 15:00 UTC. -/
def nowMonday15 : Time := Date 2024 1 8 15 0 0 0 0

/-- A weekly job anchored on Wednesday 2024-01-03, 10:00 UTC. -/
def weeklyWednesdayJob : Job :=
  { Job.zero with ID := 1, Schedule := Date 2024 1 3 10 0 0 0 0, Occurrences := 5,
                  Label := "weekly", Frequency := "W" }

/-- The stored row of a job with three occurrences left. -/
def threeRunsRow : JobRow :=
  { id := 4, schedule := Date 2024 1 8 16 0 0 0 0, user_schedule := "08-01-2024 16:00",
    occurrences := 3, frequency := "m", label := "ping", cron_time := "@every 1m",
    created_at := Date 2024 1 8 12 0 0 0 0 }

/-- A database that holds `threeRunsRow` only. -/
def threeRunsDB : DB :=
  { jobs := [threeRunsRow], tasks := [], lastID := 4,
    currentTimestamp := Date 2024 1 8 12 0 0 0 0 }

/-- The handler of the job of `threeRunsRow`, its periodic trigger installed and
started. -/
def threeRunsHandler : JobHandler :=
  { j := { Job.zero with ID := 4, Schedule := Date 2024 1 8 16 0 0 0 0, Occurrences := 3,
                         Label := "ping", Frequency := "m", CronTime := "@every 1m" },
    cs := (Cron.New.AddJob "@every 1m").1.Start }

/-- The body of a request that registers a job to run once, as decoded. -/
def oneShotPayload : JobPayload :=
  { ID := 0, Schedule := zeroTime, UserSchedule := "08-01-2024 16:00", Occurrences := 1,
    Label := "once", Frequency := "D",
    Workflow := [{ JobID := 0, Action := "deploy", Args := ["api", "/home/apps/api"] }],
    CreatedAt := zeroTime }

/-- A layout parser that reads every schedule as Monday 2024-01-08, 16:00 UTC. -/
def parseMonday16 (_ : String) : Option Time := some (Date 2024 1 8 16 0 0 0 0)

/-- The job `ParseBody` makes of `oneShotPayload`, with the recurrence expression
`SetCronFrequency` gives it. -/
def oneShotJob : Job :=
  { ID := 0, Schedule := Date 2024 1 8 16 0 0 0 0, UserSchedule := "08-01-2024 16:00",
    Occurrences := 1, Label := "once", Frequency := "D",
    Workflow := [{ JobID := 0, Action := "deploy", Args := ["api", "/home/apps/api"] }],
    CreatedAt := zeroTime, CronTime := "@daily", IsOneTime := true }

/-- A handler of a job that recurs without bound, its periodic trigger running. -/
def unboundedHandler : JobHandler :=
  { j := { Job.zero with ID := 4, Schedule := Date 2024 1 8 16 0 0 0 0, Occurrences := -1,
                         Label := "forever", Frequency := "H", CronTime := "@hourly" },
    cs := (Cron.New.AddJob "@hourly").1.Start }

/-- Monday 2024-01-08, 09:00 UTC. -/
def nowMonday9 : Time := Date 2024 1 8 9 0 0 0 0

/-- Wednesday 2024-04-10, 15:00 UTC. -/
def nowApril10 : Time := Date 2024 4 10 15 0 0 0 0

/-- A monthly job anchored on 2024-01-31, 10:00 UTC. -/
def monthlyJob31 : Job :=
  { Job.zero with ID := 2, Schedule := Date 2024 1 31 10 0 0 0 0, Occurrences := -1,
                  Label := "monthly", Frequency := "M" }

/-- The offset of a location five and a half hours east of UTC. -/
def plus0530 : Int := 19800

/-- Monday 2024-01-08, 15:20 on the wall clock of `plus0530`. -/
def nowHalfHourZone : Time := Date 2024 1 8 15 20 0 0 plus0530

/-- An hourly job anchored on 2024-01-01, 10:15 on the wall clock of `plus0530`. -/
def hourlyJobHalfHourZone : Job :=
  { Job.zero with ID := 3, Schedule := Date 2024 1 1 10 15 0 0 plus0530, Occurrences := -1,
                  Label := "hourly", Frequency := "H" }

/-- A job whose frequency is none of the six codes. -/
def quarterlyJob : Job :=
  { Job.zero with ID := 7, Schedule := Date 2024 1 3 10 0 0 0 0, Occurrences := 5,
                  Label := "quarterly", Frequency := "Q" }

/-- A process in UTC whose clock reads Monday 2024-01-08, 15:00 UTC at first and
advances by a microsecond from one reading to the next. -/
def envMonday15 : Env := { loc := 0, clock := fun n => nowMonday15.ns + 1000 * n }

/-- A database that holds the weekly job anchored on Wednesday 2024-01-03, 10:00
UTC, five occurrences left. -/
def weeklyDB : DB :=
  { jobs := [{ id := 1, schedule := Date 2024 1 3 10 0 0 0 0,
               user_schedule := "03-01-2024 10:00", occurrences := 5, frequency := "W",
               label := "weekly", cron_time := "@weekly",
               created_at := Date 2024 1 1 0 0 0 0 0 }],
    tasks := [], lastID := 1, currentTimestamp := Date 2024 1 1 0 0 0 0 0 }

/-- A database that holds a job with exactly one occurrence left, due on Monday
2024-01-08 at 16:00 UTC. -/
def oneShotDB : DB :=
  { jobs := [{ id := 7, schedule := Date 2024 1 8 16 0 0 0 0,
               user_schedule := "08-01-2024 16:00", occurrences := 1, frequency := "m",
               label := "once", cron_time := "@every 1m",
               created_at := Date 2024 1 1 0 0 0 0 0 }],
    tasks := [], lastID := 7, currentTimestamp := Date 2024 1 1 0 0 0 0 0 }

/-- The job `RetrieveJobs` builds from `oneShotDB`, with the recurrence expression
the reload pass gives it: what the deferred trigger armed by `ReloadJobs` holds. -/
def oneShotReloaded : Job :=
  { ID := 7, Schedule := Date 2024 1 8 16 0 0 0 0, UserSchedule := "08-01-2024 16:00",
    Occurrences := 1, Label := "once", Frequency := "m", Workflow := [],
    CreatedAt := Date 2024 1 1 0 0 0 0 0, CronTime := "@every 1m", IsOneTime := false }

/-- Monday 2024-01-08, 10:00 UTC, to the nanosecond. -/
def nowMonday10 : Time := Date 2024 1 8 10 0 0 0 0

/-- A daily job anchored on Wednesday 2024-01-03, 10:00 UTC. -/
def dailyJob : Job :=
  { Job.zero with ID := 5, Schedule := Date 2024 1 3 10 0 0 0 0, Occurrences := -1,
                  Label := "daily", Frequency := "D" }

/-- A handler of a job whose identifier no stored row carries. -/
def orphanHandler : JobHandler :=
  { j := { Job.zero with ID := 99, Schedule := Date 2024 1 8 16 0 0 0 0, Occurrences := 3,
                         Label := "orphan", Frequency := "m", CronTime := "@every 1m" },
    cs := (Cron.New.AddJob "@every 1m").1.Start }

/-- A process in UTC whose clock reads Monday 2024-01-08, 16:00 UTC, to the
nanosecond, at its first reading. -/
def envMonday16 : Env :=
  { loc := 0, clock := fun n => (Date 2024 1 8 16 0 0 0 0).ns + 1000 * n }

/-- A database without rows. -/
def emptyDB : DB := { jobs := [], tasks := [], lastID := 0, currentTimestamp := zeroTime }

/-- A handler of a job with one `deploy` task, its periodic trigger running. -/
def deployHandler : JobHandler :=
  { j := { Job.zero with ID := 4, Schedule := Date 2024 1 8 16 0 0 0 0, Occurrences := 3,
                         Label := "ping", Frequency := "m", CronTime := "@every 1m",
                         Workflow := [{ JobID := 4, Action := "deploy",
                                        Args := ["api", "/home/apps/api"] }] },
    cs := (Cron.New.AddJob "@every 1m").1.Start }

/-- Is the line one that `Run` prints while it keeps the books of the
occurrences, after the tasks? -/
def LogLine.isBookkeeping : LogLine → Bool
  | .couldNotDecrement _ _ => true
  | .occurrencesDecrement _ _ => true
  | .jobDeletion _ => true
  | .couldNotDelete _ _ => true
  | _ => false

/-- The jobs `RetrieveJobs` builds from the rows it scans. -/
def RegisterRepository.scanRows (rows : List JoinedRow) : List Job :=
  (rows.foldl RegisterRepository.retrieveStep []).map (fun e => e.2)

/-- The tasks scanned from the rows of the job `id` whose task columns are not
NULL, in row order. -/
def tasksOf (rows : List JoinedRow) (id : Int) : List Task :=
  (rows.filter (fun r => decide (r.id = id) && r.action.isSome)).map
    (fun r => (RegisterRepository.scanRow r).2)

/-- What the loop of `RetrieveJobs` maintains: the keys of the map are distinct,
they are the identifiers of the rows read, every job sits under its own
identifier and carries the tasks of its rows. -/
def GroupedBy (rows : List JoinedRow) (m : List (Int × Job)) : Prop :=
  (m.map (fun e => e.1)).Nodup ∧
  (∀ id, id ∈ m.map (fun e => e.1) ↔ id ∈ rows.map (fun r => r.id)) ∧
  (∀ e ∈ m, e.2.ID = e.1 ∧ e.2.Workflow = tasksOf rows e.1)

/-- A process in UTC whose clock reads Monday 2024-01-08, 17:00 UTC at first and
advances by a microsecond from one reading to the next. -/
def envMonday17 : Env :=
  { loc := 0, clock := fun n => (Date 2024 1 8 17 0 0 0 0).ns + 1000 * n }

/-- A request that submits `oneShotPayload` with the frequency `Q`. -/
def quarterlyRequest : Request :=
  { Method := "POST", Body := some (Except.ok { oneShotPayload with Frequency := "Q" }) }

/-- A database that holds one job whose frequency is `Q`, five occurrences left,
due on Monday 2024-01-08 at 16:00 UTC. -/
def quarterlyFutureDB : DB :=
  { jobs := [{ id := 7, schedule := Date 2024 1 8 16 0 0 0 0,
               user_schedule := "08-01-2024 16:00", occurrences := 5, frequency := "Q",
               label := "quarterly", cron_time := "", created_at := Date 2024 1 1 0 0 0 0 0 }],
    tasks := [], lastID := 7, currentTimestamp := Date 2024 1 1 0 0 0 0 0 }

/-- The job `RetrieveJobs` builds from `quarterlyFutureDB`. -/
def quarterlyFutureJob : Job :=
  { ID := 7, Schedule := Date 2024 1 8 16 0 0 0 0, UserSchedule := "08-01-2024 16:00",
    Occurrences := 5, Label := "quarterly", Frequency := "Q", Workflow := [],
    CreatedAt := Date 2024 1 1 0 0 0 0 0, CronTime := "", IsOneTime := false }

/-- A `deploy` task for the service named `a,b`. -/
def commaTask : Task := { JobID := 0, Action := "deploy", Args := ["a,b", "/home/apps/a,b"] }

/-- A valid job whose one task is `commaTask`. -/
def commaJob : Job := { oneShotJob with Workflow := [commaTask] }

/-- The deferred trigger that the `isReload` branch of `RegisterJob` arms for a
call: `time.AfterFunc(timeUntilStart, ...)` on the job that `SetCronFrequency`
returns, when `SetCronFrequency` returns no error and `timeUntilStart > 0`;
none otherwise. -/
def RegisterCall.reloadTimer (c : RegisterCall) : Option Timer :=
  if (SetCronFrequency c.job).2 = none ∧ c.timeUntilStart > 0 then
    some { delay := c.timeUntilStart, job := (SetCronFrequency c.job).1 }
  else none

/-! # Theorems -/

/-! ## Storage lemmas -/

theorem find_decrement (id : Int) (l : List JobRow) (r : JobRow)
    (h : l.find? (fun r => decide (r.id = id)) = some r) :
    (l.map (fun r => if r.id = id then { r with occurrences := r.occurrences - 1 } else r)).find?
      (fun r => decide (r.id = id)) = some { r with occurrences := r.occurrences - 1 } := by
  induction l with
  | nil => simp at h
  | cons a t ih =>
    by_cases ha : a.id = id
    · simp [List.find?, ha] at h ⊢
      subst h
      simp [ha]
    · simp [List.find?, ha] at h ⊢
      simpa using ih h

theorem find_delete (id : Int) (l : List JobRow) :
    (l.filter (fun r => decide (r.id ≠ id))).find? (fun r => decide (r.id = id)) = none := by
  induction l with
  | nil => rfl
  | cons a t ih =>
    by_cases ha : a.id = id
    · simp [List.filter, ha]
    · simp [List.filter, ha, List.find?]

theorem findJob_decrement (db : DB) (id : Int) (r : JobRow) (h : db.findJob id = some r) :
    db.decrementOccurrences id =
      (some (r.occurrences - 1),
        { db with jobs := db.jobs.map (fun r =>
            if r.id = id then { r with occurrences := r.occurrences - 1 } else r) }) ∧
    (db.decrementOccurrences id).2.findJob id = some { r with occurrences := r.occurrences - 1 } := by
  unfold DB.findJob at h
  have h1 : db.decrementOccurrences id =
      (some (r.occurrences - 1),
        { db with jobs := db.jobs.map (fun r =>
            if r.id = id then { r with occurrences := r.occurrences - 1 } else r) }) := by
    simp only [DB.decrementOccurrences, h]
  refine ⟨h1, ?_⟩
  rw [h1]
  exact find_decrement id db.jobs r h

theorem findJob_deleteJob (db : DB) (id : Int) : (db.deleteJob id).findJob id = none := by
  simp only [DB.findJob, DB.deleteJob]
  exact find_delete id db.jobs

/-! ## `Run` on the SQLite-backed repository -/

theorem Run_unbounded {σ : Type} (rr : RegisterInterface σ) (h : JobHandler) (w : World σ)
    (hocc : h.j.Occurrences = -1) :
    h.Run rr w =
      (h, { w with logs := w.logs ++ [LogLine.runJob h.j.ID] ++
              h.j.Workflow.map (fun v => LogLine.runTask v.Action v.JobID) }) := by
  simp [JobHandler.Run, hocc, World.log]

theorem Run_sqlite_remaining (localLoc : Int) (h : JobHandler) (w : World DB) (r : JobRow)
    (hocc : h.j.Occurrences ≠ -1) (hrow : w.db.findJob h.j.ID = some r)
    (hleft : r.occurrences - 1 ≠ 0) :
    h.Run (NewRegisterRepository localLoc) w =
      (h, { db := (w.db.decrementOccurrences h.j.ID).2,
            calls := w.calls ++ [RepoCall.DecrementJobOccurrences h.j.ID],
            timers := w.timers,
            logs := w.logs ++ [LogLine.runJob h.j.ID] ++
              h.j.Workflow.map (fun v => LogLine.runTask v.Action v.JobID) ++
              [LogLine.occurrencesDecrement h.j.ID (r.occurrences - 1)],
            ticks := w.ticks,
            registerCalls := w.registerCalls }) := by
  have hd := (findJob_decrement w.db h.j.ID r hrow).1
  simp [JobHandler.Run, hocc, World.log, World.callDecrementJobOccurrences,
    NewRegisterRepository, RegisterRepository.DecrementJobOccurrences, hd, hleft]

theorem Run_sqlite_last (localLoc : Int) (h : JobHandler) (w : World DB) (r : JobRow)
    (hocc : h.j.Occurrences ≠ -1) (hrow : w.db.findJob h.j.ID = some r)
    (hleft : r.occurrences - 1 = 0) :
    h.Run (NewRegisterRepository localLoc) w =
      ({ h with cs := h.cs.Stop },
        { db := (w.db.decrementOccurrences h.j.ID).2.deleteJob h.j.ID,
          calls := w.calls ++ [RepoCall.DecrementJobOccurrences h.j.ID,
            RepoCall.DeleteJob h.j.ID],
          timers := w.timers,
          logs := w.logs ++ [LogLine.runJob h.j.ID] ++
            h.j.Workflow.map (fun v => LogLine.runTask v.Action v.JobID) ++
            [LogLine.occurrencesDecrement h.j.ID 0, LogLine.jobDeletion h.j.ID],
          ticks := w.ticks,
          registerCalls := w.registerCalls }) := by
  have hd := (findJob_decrement w.db h.j.ID r hrow).1
  simp [JobHandler.Run, hocc, World.log, World.callDecrementJobOccurrences,
    World.callDeleteJob, NewRegisterRepository, RegisterRepository.DecrementJobOccurrences,
    RegisterRepository.DeleteJob, hd, hleft]

theorem runTimes_sqlite_invariant (localLoc : Int) (h : JobHandler) (w : World DB) (r : JobRow)
    (N : Nat) (hocc : h.j.Occurrences = N) (hrow : w.db.findJob h.j.ID = some r)
    (hr : r.occurrences = N) (k : Nat) (hk : k < N) :
    (runTimes (NewRegisterRepository localLoc) k h w).1 = h ∧
    (runTimes (NewRegisterRepository localLoc) k h w).2.db.findJob h.j.ID =
      some { r with occurrences := (N : Int) - k } ∧
    (runTimes (NewRegisterRepository localLoc) k h w).2.calls =
      w.calls ++ List.replicate k (RepoCall.DecrementJobOccurrences h.j.ID) := by
  induction k with
  | zero =>
    refine ⟨rfl, ?_, by simp [runTimes]⟩
    simp only [runTimes, hrow, Nat.cast_zero, sub_zero, ← hr]
  | succ k ih =>
    obtain ⟨ih1, ih2, ih3⟩ := ih (by omega)
    have hne : h.j.Occurrences ≠ -1 := by omega
    have hleft : ({ r with occurrences := (N : Int) - k } : JobRow).occurrences - 1 ≠ 0 := by
      simp only
      omega
    have hrun := Run_sqlite_remaining localLoc h
      (runTimes (NewRegisterRepository localLoc) k h w).2 _ hne ih2 hleft
    have hdb := (findJob_decrement _ h.j.ID _ ih2).2
    simp only [runTimes, ih1, hrun]
    refine ⟨trivial, ?_, ?_⟩
    · rw [hdb]
      simp only [Nat.cast_add, Nat.cast_one, Option.some.injEq, JobRow.mk.injEq, true_and, and_true]
      omega
    · rw [ih3, List.replicate_succ', List.append_assoc]

/-- C4.  A job with `N > 1` occurrences, on the SQLite-backed storage: after `k`
executions of `Run` with `0 < k < N` the job is still stored, with `N - k`
occurrences left, its periodic trigger is untouched and `Run` has made `k`
decrement calls and no delete call; after exactly `N` executions the job is
gone from storage, the delete call was made once and the periodic trigger
has been stopped. -/
theorem C4_bounded_job_retired_after_N_runs (localLoc : Int) (h : JobHandler) (w : World DB)
    (r : JobRow) (N : Nat) (hN : 1 < N) (hocc : h.j.Occurrences = N)
    (hrow : w.db.findJob h.j.ID = some r) (hr : r.occurrences = N) :
    (∀ k : Nat, 0 < k → k < N →
      (runTimes (NewRegisterRepository localLoc) k h w).2.db.findJob h.j.ID =
        some { r with occurrences := (N : Int) - k } ∧
      (runTimes (NewRegisterRepository localLoc) k h w).1.cs = h.cs ∧
      (runTimes (NewRegisterRepository localLoc) k h w).2.calls =
        w.calls ++ List.replicate k (RepoCall.DecrementJobOccurrences h.j.ID)) ∧
    (runTimes (NewRegisterRepository localLoc) N h w).2.db.findJob h.j.ID = none ∧
    (runTimes (NewRegisterRepository localLoc) N h w).1.cs = h.cs.Stop ∧
    (runTimes (NewRegisterRepository localLoc) N h w).1.cs.running = false ∧
    (runTimes (NewRegisterRepository localLoc) N h w).1.cs.stopCalls = h.cs.stopCalls + 1 ∧
    (runTimes (NewRegisterRepository localLoc) N h w).2.calls =
      w.calls ++ List.replicate N (RepoCall.DecrementJobOccurrences h.j.ID) ++
        [RepoCall.DeleteJob h.j.ID] := by
  constructor
  · intro k _ hk
    obtain ⟨h1, h2, h3⟩ := runTimes_sqlite_invariant localLoc h w r N hocc hrow hr k hk
    exact ⟨h2, by rw [h1], h3⟩
  · obtain ⟨M, rfl⟩ : ∃ M, N = M + 1 := ⟨N - 1, by omega⟩
    obtain ⟨h1, h2, h3⟩ := runTimes_sqlite_invariant localLoc h w r (M + 1) hocc hrow hr M
      (by omega)
    have hne : h.j.Occurrences ≠ -1 := by omega
    have hleft : ({ r with occurrences := ((M + 1 : Nat) : Int) - M } : JobRow).occurrences - 1
        = 0 := by
      simp only [Nat.cast_add, Nat.cast_one]
      omega
    have hrun := Run_sqlite_last localLoc h
      (runTimes (NewRegisterRepository localLoc) M h w).2 _ hne h2 hleft
    have hlast : runTimes (NewRegisterRepository localLoc) (M + 1) h w =
        h.Run (NewRegisterRepository localLoc)
          (runTimes (NewRegisterRepository localLoc) M h w).2 := by
      simp only [runTimes, h1]
    rw [hlast, hrun]
    refine ⟨findJob_deleteJob _ _, rfl, rfl, rfl, ?_⟩
    simp only [h3, List.replicate_succ', List.append_assoc, List.singleton_append]

/-- Witness of C4: a job with three occurrences left has one left after two
runs and is deleted, its trigger stopped, after the third. -/
theorem C4_bounded_job_retired_witness :
    (1 < 3 ∧ threeRunsHandler.j.Occurrences = (3 : Nat) ∧
      (World.init threeRunsDB).db.findJob threeRunsHandler.j.ID = some threeRunsRow ∧
      threeRunsRow.occurrences = (3 : Nat)) ∧
    ((runTimes (NewRegisterRepository 0) 2 threeRunsHandler (World.init threeRunsDB)).2.db.findJob
        threeRunsHandler.j.ID = some { threeRunsRow with occurrences := ((3 : Nat) : Int) - (2 : Nat) } ∧
      (runTimes (NewRegisterRepository 0) 3 threeRunsHandler (World.init threeRunsDB)).2.db.findJob
        threeRunsHandler.j.ID = none ∧
      (runTimes (NewRegisterRepository 0) 3 threeRunsHandler (World.init threeRunsDB)).1.cs.running
        = false) :=
  ⟨⟨by decide, by decide, by decide, by decide⟩,
    ((C4_bounded_job_retired_after_N_runs 0 threeRunsHandler (World.init threeRunsDB)
        threeRunsRow 3 (by decide) (by decide) (by decide) (by decide)).1 2 (by decide)
        (by decide)).1,
    (C4_bounded_job_retired_after_N_runs 0 threeRunsHandler (World.init threeRunsDB)
        threeRunsRow 3 (by decide) (by decide) (by decide) (by decide)).2.1,
    (C4_bounded_job_retired_after_N_runs 0 threeRunsHandler (World.init threeRunsDB)
        threeRunsRow 3 (by decide) (by decide) (by decide) (by decide)).2.2.2.1⟩

theorem runTimes_unbounded {σ : Type} (rr : RegisterInterface σ) (h : JobHandler) (w : World σ)
    (hocc : h.j.Occurrences = -1) (k : Nat) :
    (runTimes rr k h w).1 = h ∧ (runTimes rr k h w).2.db = w.db ∧
    (runTimes rr k h w).2.calls = w.calls ∧ (runTimes rr k h w).2.timers = w.timers := by
  induction k with
  | zero => exact ⟨rfl, rfl, rfl, rfl⟩
  | succ k ih =>
    obtain ⟨h1, h2, h3, h4⟩ := ih
    simp only [runTimes, h1, Run_unbounded rr h _ hocc]
    exact ⟨trivial, h2, h3, h4⟩


theorem ParseBody_isOneTime (parseInLocation : String → Option Time)
    (body : Option (Except Error JobPayload)) (j : Job)
    (h : ParseBody parseInLocation body = (j, none)) :
    j.IsOneTime = decide (j.Occurrences = 1) := by
  unfold ParseBody at h
  split at h
  · simp at h
  · simp at h
  · split at h
    · simp at h
    · simp only [Prod.mk.injEq, and_true] at h
      rw [← h]

theorem GetCronFrequency_fields (j : Job) :
    (GetCronFrequency j).1 = { j with CronTime := (GetCronFrequency j).1.CronTime } := by
  unfold GetCronFrequency
  split_ifs <;> rfl

theorem SetCronFrequency_fields (j : Job) :
    (SetCronFrequency j).1 = { j with CronTime := (SetCronFrequency j).1.CronTime } := by
  unfold SetCronFrequency
  split_ifs
  · have hg := GetCronFrequency_fields j
    split
    · rfl
    · rename_i j1 heq
      rw [heq] at hg
      exact hg
  · rfl

theorem foldl_insertTask_jobs (jobID : Int) (l : List Task) (db : DB) :
    (l.foldl (fun d v => d.insertTask jobID v.Action (stringsJoin v.Args ",")) db).jobs
      = db.jobs ∧
    (l.foldl (fun d v => d.insertTask jobID v.Action (stringsJoin v.Args ",")) db).lastID
      = db.lastID := by
  induction l generalizing db with
  | nil => exact ⟨rfl, rfl⟩
  | cons a t ih =>
    simp only [List.foldl_cons]
    exact ih _

theorem find_append_fresh (id : Int) (l : List JobRow) (r : JobRow) (hr : r.id = id)
    (hl : ∀ x ∈ l, x.id ≠ id) :
    (l ++ [r]).find? (fun r => decide (r.id = id)) = some r := by
  induction l with
  | nil => simp [List.find?, hr]
  | cons a t ih =>
    have ha : a.id ≠ id := hl a (List.mem_cons_self a t)
    simp only [List.cons_append, List.find?, ha, decide_False]
    exact ih (fun x hx => hl x (List.mem_cons_of_mem a hx))

theorem RegisterRepository_RegisterJob_row (localLoc : Int) (j : Job) (db : DB)
    (hids : ∀ r ∈ db.jobs, r.id ≤ db.lastID) :
    (RegisterRepository.RegisterJob localLoc j db).1 = (db.lastID + 1, none) ∧
    (RegisterRepository.RegisterJob localLoc j db).2.findJob (db.lastID + 1) =
      some { id := db.lastID + 1, schedule := j.Schedule.In localLoc,
             user_schedule := j.UserSchedule, occurrences := j.Occurrences,
             frequency := j.Frequency, label := j.Label, cron_time := j.CronTime,
             created_at := db.currentTimestamp } := by
  refine ⟨rfl, ?_⟩
  simp only [RegisterRepository.RegisterJob, DB.findJob, DB.insertJob]
  rw [(foldl_insertTask_jobs _ _ _).1]
  apply find_append_fresh
  · rfl
  · intro x hx
    have := hids x hx
    omega


/-- C2.  A job produced by registration with one occurrence: `ParseBody` yields
it, `SetCronFrequency` gives it its recurrence expression and `RegisterJob`
stores it under a fresh identifier and arms its deferred trigger.  When that
trigger fires on a world in which the stored row is still the one
registration wrote, `handleJob` returns no error after exactly one `Run`: one
decrement call that leaves `0`, one delete call, the row gone from storage,
and a trigger instance on which no entry was added and `Start` was never
called. -/
theorem C2_one_shot_job_runs_once (parseInLocation : String → Option Time)
    (body : Option (Except Error JobPayload)) (j0 j : Job) (localLoc : Int) (w w2 : World DB)
    (delay : Duration)
    (hparse : ParseBody parseInLocation body = (j0, none))
    (hone : j0.Occurrences = 1)
    (hcron : SetCronFrequency j0 = (j, none))
    (hids : ∀ r ∈ w.db.jobs, r.id ≤ w.db.lastID)
    (hdelay : 0 < delay)
    (hlater : w2.db.findJob (w.db.lastID + 1) =
      (RegisterJob (NewRegisterRepository localLoc) j delay false w).2.db.findJob
        (w.db.lastID + 1)) :
    (RegisterJob (NewRegisterRepository localLoc) j delay false w).1 = (w.db.lastID + 1, none) ∧
    (RegisterJob (NewRegisterRepository localLoc) j delay false w).2.timers =
      w.timers ++ [{ delay := delay, job := { j with ID := w.db.lastID + 1 } }] ∧
    (handleJob (NewRegisterRepository localLoc) { j with ID := w.db.lastID + 1 } w2).1 = none ∧
    (handleJob (NewRegisterRepository localLoc) { j with ID := w.db.lastID + 1 } w2).2.1.cs.entries
      = [] ∧
    (handleJob (NewRegisterRepository localLoc) { j with ID := w.db.lastID + 1 }
      w2).2.1.cs.startCalls = 0 ∧
    (handleJob (NewRegisterRepository localLoc) { j with ID := w.db.lastID + 1 } w2).2.1.cs.running
      = false ∧
    (handleJob (NewRegisterRepository localLoc) { j with ID := w.db.lastID + 1 } w2).2.2.calls =
      w2.calls ++ [RepoCall.DecrementJobOccurrences (w.db.lastID + 1),
        RepoCall.DeleteJob (w.db.lastID + 1)] ∧
    (handleJob (NewRegisterRepository localLoc) { j with ID := w.db.lastID + 1 }
      w2).2.2.db.findJob (w.db.lastID + 1) = none ∧
    (handleJob (NewRegisterRepository localLoc) { j with ID := w.db.lastID + 1 } w2).2.2.logs =
      w2.logs ++ [LogLine.runJob (w.db.lastID + 1)] ++
        j.Workflow.map (fun v => LogLine.runTask v.Action v.JobID) ++
        [LogLine.occurrencesDecrement (w.db.lastID + 1) 0,
          LogLine.jobDeletion (w.db.lastID + 1)] := by
  have hflag0 := ParseBody_isOneTime parseInLocation body j0 hparse
  have hfields := SetCronFrequency_fields j0
  rw [hcron] at hfields
  simp only at hfields
  have hocc : j.Occurrences = 1 := by rw [hfields]; exact hone
  have hflag : j.IsOneTime = true := by
    rw [hfields]
    simp only [hflag0, hone, decide_True]
  obtain ⟨hid, hrow⟩ := RegisterRepository_RegisterJob_row localLoc j w.db hids
  have hreg : RegisterJob (NewRegisterRepository localLoc) j delay false w =
      ((w.db.lastID + 1, none),
        ({ w with db := (RegisterRepository.RegisterJob localLoc j w.db).2,
                  calls := w.calls ++ [RepoCall.RegisterJob j],
                  registerCalls := w.registerCalls ++
                    [{ job := j, timeUntilStart := delay, isReload := false }] } :
          World DB).afterFunc delay
          { j with ID := w.db.lastID + 1 }) := by
    simp only [RegisterJob, World.callRegisterJob, World.enterRegisterJob, NewRegisterRepository,
      hid, hdelay, gt_iff_lt, if_true]
  rw [hreg] at hlater ⊢
  simp only [World.afterFunc] at hlater
  rw [hrow] at hlater
  have hne : (NewJobHandler { j with ID := w.db.lastID + 1 } Cron.New).j.Occurrences ≠ -1 := by
    simp only [NewJobHandler, hocc]
    decide
  have hrun := Run_sqlite_last localLoc (NewJobHandler { j with ID := w.db.lastID + 1 } Cron.New)
    w2 _ hne hlater (by simp only [hocc]; decide)
  have hhandle : handleJob (NewRegisterRepository localLoc) { j with ID := w.db.lastID + 1 } w2 =
      (none, (JobHandler.Run (NewRegisterRepository localLoc)
          (NewJobHandler { j with ID := w.db.lastID + 1 } Cron.New) w2).1,
        (JobHandler.Run (NewRegisterRepository localLoc)
          (NewJobHandler { j with ID := w.db.lastID + 1 } Cron.New) w2).2) := by
    simp only [handleJob, hflag, Bool.true_eq_false, if_false]
  rw [hhandle, hrun]
  exact ⟨rfl, rfl, rfl, rfl, rfl, rfl, rfl, findJob_deleteJob _ _, rfl⟩

/-- Witness of C2: the one-shot job of `oneShotPayload`, registered on an empty
database with a delay of one hour, and fired right after. -/
theorem C2_one_shot_job_runs_once_witness :
    (ParseBody parseMonday16 (some (Except.ok oneShotPayload)) =
        ({ oneShotJob with CronTime := "" }, none) ∧
      ({ oneShotJob with CronTime := "" } : Job).Occurrences = 1 ∧
      SetCronFrequency { oneShotJob with CronTime := "" } = (oneShotJob, none) ∧
      (0 : Duration) < Hour) ∧
    (handleJob (NewRegisterRepository 0) { oneShotJob with ID := 0 + 1 }
      (RegisterJob (NewRegisterRepository 0) oneShotJob Hour false
        (World.init { jobs := [], tasks := [], lastID := 0, currentTimestamp := zeroTime
          })).2).2.1.cs.entries = [] :=
  ⟨⟨by decide, by decide, by decide, by decide⟩,
    (C2_one_shot_job_runs_once parseMonday16 (some (Except.ok oneShotPayload))
      { oneShotJob with CronTime := "" } oneShotJob 0
      (World.init { jobs := [], tasks := [], lastID := 0, currentTimestamp := zeroTime })
      (RegisterJob (NewRegisterRepository 0) oneShotJob Hour false
        (World.init { jobs := [], tasks := [], lastID := 0, currentTimestamp := zeroTime })).2
      Hour (by decide) (by decide) (by decide) (by intro r hr; cases hr) (by decide) rfl).2.2.2.1⟩

/-- C5.  A job with `occurrences = -1`: however often `Run` executes, it makes no
call on the repository (no decrement, no delete), storage is as it was, and
the periodic trigger is as it was: `Stop` has not been called on it. -/
theorem C5_unbounded_job_never_stopped {σ : Type} (rr : RegisterInterface σ) (h : JobHandler)
    (w : World σ) (hocc : h.j.Occurrences = -1) (k : Nat) :
    (runTimes rr k h w).2.calls = w.calls ∧
    (runTimes rr k h w).2.db = w.db ∧
    (runTimes rr k h w).1.cs = h.cs ∧
    (runTimes rr k h w).1.cs.stopCalls = h.cs.stopCalls ∧
    (runTimes rr k h w).1.cs.running = h.cs.running := by
  obtain ⟨h1, h2, h3, _⟩ := runTimes_unbounded rr h w hocc k
  rw [h1]
  exact ⟨h3, h2, rfl, rfl, rfl⟩

/-- Witness of C5: five runs of an unbounded job on the SQLite-backed storage. -/
theorem C5_unbounded_job_never_stopped_witness :
    unboundedHandler.j.Occurrences = -1 ∧
    (runTimes (NewRegisterRepository 0) 5 unboundedHandler (World.init threeRunsDB)).2.calls = [] ∧
    (runTimes (NewRegisterRepository 0) 5 unboundedHandler (World.init threeRunsDB)).2.db
      = threeRunsDB ∧
    (runTimes (NewRegisterRepository 0) 5 unboundedHandler (World.init threeRunsDB)).1.cs.running
      = true :=
  ⟨by decide,
    (C5_unbounded_job_never_stopped (NewRegisterRepository 0) unboundedHandler
      (World.init threeRunsDB) (by decide) 5).1,
    (C5_unbounded_job_never_stopped (NewRegisterRepository 0) unboundedHandler
      (World.init threeRunsDB) (by decide) 5).2.1,
    (C5_unbounded_job_never_stopped (NewRegisterRepository 0) unboundedHandler
      (World.init threeRunsDB) (by decide) 5).2.2.2.2⟩

/-! ## The schedule calculator -/

/-- C1, at failing inputs.  Weekly job anchored on Wednesday 10:00, current
instant Monday 2024-01-08 15:00 UTC: `calculateNextValidSchedule` returns
Monday 2024-01-08 10:00 UTC, five hours before the current instant.  Daily job
anchored at 10:00, current instant Monday 10:00 sharp: it returns the current
instant itself. -/
theorem C1_weekly_next_run_in_the_past :
    (calculateNextValidSchedule 0 nowMonday15 weeklyWednesdayJob).1 = Date 2024 1 8 10 0 0 0 0 ∧
    (calculateNextValidSchedule 0 nowMonday15 weeklyWednesdayJob).1.After nowMonday15 = false ∧
    (calculateNextValidSchedule 0 nowMonday15 weeklyWednesdayJob).1.Sub nowMonday15 =
      -(5 * Hour) ∧
    (calculateNextValidSchedule 0 nowMonday10 dailyJob).1 = nowMonday10 ∧
    (calculateNextValidSchedule 0 nowMonday10 dailyJob).1.After nowMonday10 = false := by
  decide

/-- C6, at a failing input.  Hourly job anchored at minute 15, process and anchor
in a location five and a half hours east of UTC, current instant 15:20 there:
the instant returned reads 15:45 on that wall clock, its minute-of-hour is 45
and not the anchor's 15. -/
theorem C6_hourly_minute_shifted_by_zone :
    hourlyJobHalfHourZone.Schedule.Minute = 15 ∧
    (calculateNextValidSchedule plus0530 nowHalfHourZone hourlyJobHalfHourZone).1 =
      Date 2024 1 8 15 45 0 0 plus0530 ∧
    (calculateNextValidSchedule plus0530 nowHalfHourZone hourlyJobHalfHourZone).1.Minute = 45 := by
  decide

/-- C7, at failing inputs.  Weekly job anchored on a Wednesday, current instant
Monday 09:00: the instant returned is a Monday.  Monthly job anchored on the
31st, current instant in April: the instant returned is the first of May. -/
theorem C7_weekday_and_day_of_month_not_kept :
    weeklyWednesdayJob.Schedule.Weekday = 3 ∧
    (calculateNextValidSchedule 0 nowMonday9 weeklyWednesdayJob).1 = Date 2024 1 8 10 0 0 0 0 ∧
    (calculateNextValidSchedule 0 nowMonday9 weeklyWednesdayJob).1.Weekday = 1 ∧
    monthlyJob31.Schedule.Day = 31 ∧
    (calculateNextValidSchedule 0 nowApril10 monthlyJob31).1 = Date 2024 5 1 10 0 0 0 0 ∧
    (calculateNextValidSchedule 0 nowApril10 monthlyJob31).1.Day = 1 := by
  decide

/-- Counterexample to C8: for the frequency `"Q"` the calculator hands its caller
the zero instant, as a schedule. -/
theorem C8_unsupported_frequency_returns_zero_instant :
    (calculateNextValidSchedule 0 nowMonday15 quarterlyJob).1 = zeroTime := by
  decide

/-- C8, amended.  For every frequency that is none of the six codes,
`calculateNextValidSchedule` logs the unsupported frequency and returns the
zero instant `time.Time{}`; its result carries no error. -/
theorem C8_unsupported_frequency_logged (localLoc : Int) (currentTime : Time) (j : Job)
    (hm : j.Frequency ≠ "m") (hH : j.Frequency ≠ "H") (hD : j.Frequency ≠ "D")
    (hW : j.Frequency ≠ "W") (hM : j.Frequency ≠ "M") (hY : j.Frequency ≠ "Y") :
    calculateNextValidSchedule localLoc currentTime j =
      (zeroTime, [LogLine.unsupportedFrequency j.Frequency]) := by
  simp only [calculateNextValidSchedule, hm, hH, hD, hW, hM, hY, if_false]

/-- Witness of C8, amended: the frequency `"Q"`. -/
theorem C8_unsupported_frequency_logged_witness :
    (quarterlyJob.Frequency ≠ "m" ∧ quarterlyJob.Frequency ≠ "H" ∧ quarterlyJob.Frequency ≠ "D" ∧
      quarterlyJob.Frequency ≠ "W" ∧ quarterlyJob.Frequency ≠ "M" ∧
      quarterlyJob.Frequency ≠ "Y") ∧
    calculateNextValidSchedule 0 nowMonday15 quarterlyJob =
      (zeroTime, [LogLine.unsupportedFrequency "Q"]) :=
  ⟨by decide,
    C8_unsupported_frequency_logged 0 nowMonday15 quarterlyJob (by decide) (by decide)
      (by decide) (by decide) (by decide) (by decide)⟩

/-! ## Reload -/

theorem RegisterJob_reload_eq {σ : Type} (rr : RegisterInterface σ) (j : Job) (d : Duration)
    (w : World σ) :
    RegisterJob rr j d true w =
      if (SetCronFrequency j).2 = none then
        (((SetCronFrequency j).1.ID, none),
          if d > 0 then (w.enterRegisterJob j d true).afterFunc d (SetCronFrequency j).1
          else w.enterRegisterJob j d true)
      else ((0, some "could not reset cron frequency"), w.enterRegisterJob j d true) := by
  simp only [RegisterJob, Bool.true_eq_false, if_false]
  rcases h : SetCronFrequency j with ⟨j1, _ | e⟩
  · simp only [if_true]
    split_ifs <;> rfl
  · simp only [reduceCtorEq, if_false]

theorem RegisterJob_reload_frame {σ : Type} (rr : RegisterInterface σ) (j : Job)
    (d : Duration) (w : World σ) :
    (RegisterJob rr j d true w).2.calls = w.calls ∧ (RegisterJob rr j d true w).2.db = w.db := by
  simp only [RegisterJob, Bool.true_eq_false, if_false]
  split
  · exact ⟨rfl, rfl⟩
  · split_ifs <;> exact ⟨rfl, rfl⟩

theorem reloadLoop_frame {σ : Type} (env : Env) (rr : RegisterInterface σ) (now : Time)
    (jobs : List Job) (w : World σ) :
    (reloadLoop env rr now jobs w).2.calls = w.calls ∧
    (reloadLoop env rr now jobs w).2.db = w.db := by
  induction jobs generalizing w with
  | nil => exact ⟨rfl, rfl⟩
  | cons job rest ih =>
    simp only [reloadLoop]
    split_ifs
    · split
      · exact ⟨rfl, rfl⟩
      · obtain ⟨h1, h2⟩ := ih (RegisterJob rr _ _ true _).2
        obtain ⟨h3, h4⟩ := RegisterJob_reload_frame rr _ _ _
        exact ⟨h1.trans h3, h2.trans h4⟩
    · obtain ⟨h1, h2⟩ := ih (RegisterJob rr _ _ true _).2
      obtain ⟨h3, h4⟩ := RegisterJob_reload_frame rr _ _ _
      exact ⟨h1.trans h3, h2.trans h4⟩

theorem GetJobs_calls {σ : Type} (rr : RegisterInterface σ) (w : World σ) :
    (GetJobs rr w).2.calls = w.calls ++ [RepoCall.RetrieveJobs] := by
  unfold GetJobs World.callRetrieveJobs
  rcases hr : rr.RetrieveJobs w.db with ⟨⟨jobs, err⟩, db1⟩
  cases err <;> rfl

/-- C10, at a failing input.  Stored weekly job anchored on Wednesday 2024-01-03
10:00 UTC, reloaded on Monday 2024-01-08 15:00 UTC: the pass reports no error,
logs a delay of minus five hours and two microseconds, and arms no deferred
trigger at all. -/
theorem C10_reload_leaves_weekly_job_unarmed :
    (ReloadJobs envMonday15 (NewRegisterRepository 0) (World.init weeklyDB)).1 = none ∧
    (ReloadJobs envMonday15 (NewRegisterRepository 0) (World.init weeklyDB)).2.timers = [] ∧
    (ReloadJobs envMonday15 (NewRegisterRepository 0) (World.init weeklyDB)).2.logs =
      [LogLine.rescheduled "weekly" 1 (Date 2024 1 8 10 0 0 0 0) (-(5 * Hour) - 2000)] := by
  decide

/-- C3, at a failing input.  Stored job 7 with exactly one occurrence left, due
in an hour: `ReloadJobs` arms its deferred trigger with a job whose one-shot
flag is `false` although its occurrence count is `1`; when the trigger fires,
`handleJob` runs the job, deletes it, and then adds the entry `"@every 1m"` to
the periodic trigger and starts it. -/
theorem C3_reloaded_one_shot_installs_periodic_trigger :
    (ReloadJobs envMonday15 (NewRegisterRepository 0) (World.init oneShotDB)).2.timers =
      [{ delay := Hour - 1000, job := oneShotReloaded }] ∧
    oneShotReloaded.Occurrences = 1 ∧ oneShotReloaded.IsOneTime = false ∧
    (handleJob (NewRegisterRepository 0) oneShotReloaded
      (ReloadJobs envMonday15 (NewRegisterRepository 0) (World.init oneShotDB)).2).1 = none ∧
    (handleJob (NewRegisterRepository 0) oneShotReloaded
      (ReloadJobs envMonday15 (NewRegisterRepository 0) (World.init oneShotDB)).2).2.1.cs =
      { entries := ["@every 1m"], running := true, startCalls := 1, stopCalls := 1 } ∧
    (handleJob (NewRegisterRepository 0) oneShotReloaded
      (ReloadJobs envMonday15 (NewRegisterRepository 0) (World.init oneShotDB)).2).2.2.db.jobs
      = [] := by
  decide

/-! ## What the schedule calculator does guarantee -/

theorem calculateNextValidSchedule_minute_after (localLoc : Int) (currentTime : Time) (j : Job)
    (hf : j.Frequency = "m") :
    currentTime.ns < (calculateNextValidSchedule localLoc currentTime j).1.ns := by
  simp only [calculateNextValidSchedule, hf, if_true, Time.In, Time.Add, Time.Truncate,
    Minute, Second]
  norm_num
  omega

theorem calculateNextValidSchedule_hourly_after (localLoc : Int) (currentTime : Time) (j : Job)
    (hf : j.Frequency = "H") :
    currentTime.ns < (calculateNextValidSchedule localLoc currentTime j).1.ns := by
  have hm : 0 ≤ j.Schedule.Minute := by
    unfold Time.Minute
    omega
  simp +decide only [calculateNextValidSchedule, hf, Time.In, Time.Add, Time.Truncate,
    Hour, Minute, Second]
  norm_num
  generalize j.Schedule.Minute = m at hm
  omega

theorem Time.clock_bounds (t : Time) :
    (0 ≤ t.Hour ∧ t.Hour < 24) ∧ (0 ≤ t.Minute ∧ t.Minute < 60) ∧
    (0 ≤ t.Second ∧ t.Second < 60) ∧ (0 ≤ t.Nanosecond ∧ t.Nanosecond < 1000000000) := by
  simp only [Time.Hour, Time.Minute, Time.Second, Time.Nanosecond, Scheduler.Second]
  omega

theorem Date_clock (year month day hour min sec nsec loc : Int)
    (hh : 0 ≤ hour ∧ hour < 24) (hm : 0 ≤ min ∧ min < 60) (hs : 0 ≤ sec ∧ sec < 60)
    (hn : 0 ≤ nsec ∧ nsec < 1000000000) :
    (Date year month day hour min sec nsec loc).Hour = hour ∧
    (Date year month day hour min sec nsec loc).Minute = min ∧
    (Date year month day hour min sec nsec loc).Second = sec ∧
    (Date year month day hour min sec nsec loc).Nanosecond = nsec := by
  simp only [Date, Time.Hour, Time.Minute, Time.Second, Time.Nanosecond, Time.wallSeconds,
    Scheduler.Second]
  generalize daysFromCivil (year + (month - 1) / 12) ((month - 1) % 12 + 1) 1 + (day - 1) = days
  omega

theorem Time.Add_day_clock (t : Time) :
    (t.Add (24 * Scheduler.Hour)).Hour = t.Hour ∧ (t.Add (24 * Scheduler.Hour)).Minute = t.Minute ∧
    (t.Add (24 * Scheduler.Hour)).Second = t.Second := by
  simp only [Time.Add, Time.Hour, Time.Minute, Time.Second, Time.wallSeconds, Scheduler.Hour,
    Scheduler.Minute, Scheduler.Second]
  omega

theorem Time.AddDate_clock (t : Time) (years months days : Int) :
    (t.AddDate years months days).Hour = t.Hour ∧
    (t.AddDate years months days).Minute = t.Minute ∧
    (t.AddDate years months days).Second = t.Second := by
  obtain ⟨hh, hm, hs, hn⟩ := t.clock_bounds
  obtain ⟨h1, h2, h3, _⟩ := Date_clock (t.Year + years) (t.Month + months) (t.Day + days)
    t.Hour t.Minute t.Second t.Nanosecond t.loc hh hm hs hn
  exact ⟨h1, h2, h3⟩

/-- For the frequencies D, W, M and Y the instant `calculateNextValidSchedule`
returns reads, on the wall clock of the anchor's location, the anchor's hour
and minute and zero seconds. -/
theorem calculateNextValidSchedule_keeps_time_of_day (localLoc : Int) (currentTime : Time)
    (j : Job)
    (hf : j.Frequency = "D" ∨ j.Frequency = "W" ∨ j.Frequency = "M" ∨ j.Frequency = "Y") :
    ((calculateNextValidSchedule localLoc currentTime j).1.In j.Schedule.loc).Hour
      = j.Schedule.Hour ∧
    ((calculateNextValidSchedule localLoc currentTime j).1.In j.Schedule.loc).Minute
      = j.Schedule.Minute ∧
    ((calculateNextValidSchedule localLoc currentTime j).1.In j.Schedule.loc).Second = 0 := by
  obtain ⟨hh, hm, _, _⟩ := j.Schedule.clock_bounds
  have hdate : ∀ y m d : Int,
      (Date y m d j.Schedule.Hour j.Schedule.Minute 0 0 j.Schedule.loc).Hour = j.Schedule.Hour ∧
      (Date y m d j.Schedule.Hour j.Schedule.Minute 0 0 j.Schedule.loc).Minute
        = j.Schedule.Minute ∧
      (Date y m d j.Schedule.Hour j.Schedule.Minute 0 0 j.Schedule.loc).Second = 0 := by
    intro y m d
    obtain ⟨h1, h2, h3, _⟩ := Date_clock y m d j.Schedule.Hour j.Schedule.Minute 0 0
      j.Schedule.loc hh hm (by omega) (by omega)
    exact ⟨h1, h2, h3⟩
  have hloc : ∀ y m d : Int,
      (Date y m d j.Schedule.Hour j.Schedule.Minute 0 0 j.Schedule.loc).loc = j.Schedule.loc :=
    fun _ _ _ => rfl
  have hin : ∀ t : Time, t.loc = j.Schedule.loc → (t.In localLoc).In j.Schedule.loc = t := by
    intro t ht
    cases t
    simp only [Time.In] at ht ⊢
    rw [ht]
  rcases hf with hf | hf | hf | hf
  · simp +decide only [calculateNextValidSchedule, hf, Time.Location, if_false, if_true]
    split_ifs
    · rw [hin (Time.Add (Date currentTime.Year currentTime.Month currentTime.Day j.Schedule.Hour
          j.Schedule.Minute 0 0 j.Schedule.loc) (24 * Hour)) rfl]
      obtain ⟨a1, a2, a3⟩ := Time.Add_day_clock
        (Date currentTime.Year currentTime.Month currentTime.Day j.Schedule.Hour
          j.Schedule.Minute 0 0 j.Schedule.loc)
      rw [a1, a2, a3]
      exact hdate _ _ _
    · rw [hin _ (hloc _ _ _)]
      exact hdate _ _ _
  · simp +decide only [calculateNextValidSchedule, hf, Time.Location, if_false, if_true]
    split_ifs
    · rw [hin (Time.AddDate (Date currentTime.Year currentTime.Month currentTime.Day j.Schedule.Hour
          j.Schedule.Minute 0 0 j.Schedule.loc) 0 0 7) rfl]
      obtain ⟨a1, a2, a3⟩ := Time.AddDate_clock
        (Date currentTime.Year currentTime.Month currentTime.Day j.Schedule.Hour
          j.Schedule.Minute 0 0 j.Schedule.loc) 0 0 7
      rw [a1, a2, a3]
      exact hdate _ _ _
    · rw [hin _ (hloc _ _ _)]
      exact hdate _ _ _
  · simp +decide only [calculateNextValidSchedule, hf, Time.Location, if_false, if_true]
    split_ifs
    · rw [hin (Time.AddDate (Date currentTime.Year currentTime.Month j.Schedule.Day j.Schedule.Hour
          j.Schedule.Minute 0 0 j.Schedule.loc) 0 1 0) rfl]
      obtain ⟨a1, a2, a3⟩ := Time.AddDate_clock
        (Date currentTime.Year currentTime.Month j.Schedule.Day j.Schedule.Hour
          j.Schedule.Minute 0 0 j.Schedule.loc) 0 1 0
      rw [a1, a2, a3]
      exact hdate _ _ _
    · rw [hin _ (hloc _ _ _)]
      exact hdate _ _ _
  · simp +decide only [calculateNextValidSchedule, hf, Time.Location, if_false, if_true]
    split_ifs
    · rw [hin (Time.AddDate (Date currentTime.Year j.Schedule.Month j.Schedule.Day j.Schedule.Hour
          j.Schedule.Minute 0 0 j.Schedule.loc) 1 0 0) rfl]
      obtain ⟨a1, a2, a3⟩ := Time.AddDate_clock
        (Date currentTime.Year j.Schedule.Month j.Schedule.Day j.Schedule.Hour
          j.Schedule.Minute 0 0 j.Schedule.loc) 1 0 0
      rw [a1, a2, a3]
      exact hdate _ _ _
    · rw [hin _ (hloc _ _ _)]
      exact hdate _ _ _

/-- For the frequency H, in a location whose offset from UTC is a whole number
of hours, the instant returned has the anchor's minute-of-hour. -/
theorem calculateNextValidSchedule_hourly_minute (localLoc : Int) (currentTime : Time) (j : Job)
    (hf : j.Frequency = "H") (hzone : j.Schedule.loc % 3600 = 0) :
    ((calculateNextValidSchedule localLoc currentTime j).1.In j.Schedule.loc).Minute
      = j.Schedule.Minute := by
  obtain ⟨_, hm, _, _⟩ := j.Schedule.clock_bounds
  simp +decide only [calculateNextValidSchedule, hf, if_false, if_true, Time.In, Time.Add,
    Time.Truncate, Hour, Minute, Second]
  norm_num
  generalize j.Schedule.Minute = m at hm
  simp only [Time.Minute, Time.wallSeconds, Second]
  generalize j.Schedule.loc = z at hzone
  omega

/-! ## The reload path builds its jobs without the one-shot flag -/

theorem retrieveStep_flag (jobMap : List (Int × Job)) (row : JoinedRow)
    (h : ∀ e ∈ jobMap, e.2.IsOneTime = false) :
    ∀ e ∈ RegisterRepository.retrieveStep jobMap row, e.2.IsOneTime = false := by
  intro e he
  unfold RegisterRepository.retrieveStep at he
  split_ifs at he
  · rw [List.mem_map] at he
    obtain ⟨a, ha, rfl⟩ := he
    split_ifs
    · exact h a ha
    · exact h a ha
  · exact h e he
  · rw [List.mem_append, List.mem_singleton] at he
    rcases he with he | rfl
    · exact h e he
    · rfl
  · rw [List.mem_append, List.mem_singleton] at he
    rcases he with he | rfl
    · exact h e he
    · rfl

theorem foldl_retrieveStep_flag (rows : List JoinedRow) (jobMap : List (Int × Job))
    (h : ∀ e ∈ jobMap, e.2.IsOneTime = false) :
    ∀ e ∈ rows.foldl RegisterRepository.retrieveStep jobMap, e.2.IsOneTime = false := by
  induction rows generalizing jobMap with
  | nil => exact h
  | cons r rest ih => exact ih _ (retrieveStep_flag jobMap r h)

/-- Every job `RetrieveJobs` returns has its one-shot flag unset, whatever its
stored occurrence count. -/
theorem RetrieveJobs_flag_unset (db : DB) (j : Job)
    (hj : j ∈ (RegisterRepository.RetrieveJobs db).1.1) : j.IsOneTime = false := by
  simp only [RegisterRepository.RetrieveJobs, List.mem_map] at hj
  obtain ⟨e, he, rfl⟩ := hj
  exact foldl_retrieveStep_flag db.getJobs [] (fun _ h => by cases h) e he

/-! ## The recurrence expression mapper and the validations -/

/-- C12.  For each of the six frequency codes `GetCronFrequency` returns no error
and sets `CronTime` to the mapped expression, every other field of the job
staying as it was: `m` gives `@every 1m`, `H` gives `@hourly`, `D` gives
`@daily`, `W` gives `@weekly`, `M` gives `@monthly`, `Y` gives `@yearly`. -/
theorem C12_GetCronFrequency_maps_six_codes (j : Job) :
    GetCronFrequency { j with Frequency := "m" } =
      ({ j with Frequency := "m", CronTime := "@every 1m" }, none) ∧
    GetCronFrequency { j with Frequency := "H" } =
      ({ j with Frequency := "H", CronTime := "@hourly" }, none) ∧
    GetCronFrequency { j with Frequency := "D" } =
      ({ j with Frequency := "D", CronTime := "@daily" }, none) ∧
    GetCronFrequency { j with Frequency := "W" } =
      ({ j with Frequency := "W", CronTime := "@weekly" }, none) ∧
    GetCronFrequency { j with Frequency := "M" } =
      ({ j with Frequency := "M", CronTime := "@monthly" }, none) ∧
    GetCronFrequency { j with Frequency := "Y" } =
      ({ j with Frequency := "Y", CronTime := "@yearly" }, none) := by
  refine ⟨?_, ?_, ?_, ?_, ?_, ?_⟩ <;> simp +decide only [GetCronFrequency, if_true, if_false]

/-- C13.  For every frequency that is none of the six codes `GetCronFrequency`
returns an error and the job as it was, its `CronTime` included. -/
theorem C13_GetCronFrequency_rejects_other_codes (j : Job)
    (hm : j.Frequency ≠ "m") (hH : j.Frequency ≠ "H") (hD : j.Frequency ≠ "D")
    (hW : j.Frequency ≠ "W") (hM : j.Frequency ≠ "M") (hY : j.Frequency ≠ "Y") :
    GetCronFrequency j = (j, some ("invalid frequency: " ++ j.Frequency)) ∧
    (GetCronFrequency j).1.CronTime = j.CronTime := by
  simp only [GetCronFrequency, hm, hH, hD, hW, hM, hY, if_false, and_self]

/-- Witness of C13: the empty frequency and the wrong-case codes `h` and `d`. -/
theorem C13_GetCronFrequency_rejects_other_codes_witness :
    (({ quarterlyJob with Frequency := "" } : Job).Frequency ≠ "m" ∧
      ({ quarterlyJob with Frequency := "h" } : Job).Frequency ≠ "H" ∧
      ({ quarterlyJob with Frequency := "d" } : Job).Frequency ≠ "D") ∧
    GetCronFrequency { quarterlyJob with Frequency := "" } =
      ({ quarterlyJob with Frequency := "" }, some ("invalid frequency: " ++ "")) ∧
    GetCronFrequency { quarterlyJob with Frequency := "h" } =
      ({ quarterlyJob with Frequency := "h" }, some ("invalid frequency: " ++ "h")) ∧
    GetCronFrequency { quarterlyJob with Frequency := "d" } =
      ({ quarterlyJob with Frequency := "d" }, some ("invalid frequency: " ++ "d")) :=
  ⟨by decide,
    (C13_GetCronFrequency_rejects_other_codes { quarterlyJob with Frequency := "" }
      (by decide) (by decide) (by decide) (by decide) (by decide) (by decide)).1,
    (C13_GetCronFrequency_rejects_other_codes { quarterlyJob with Frequency := "h" }
      (by decide) (by decide) (by decide) (by decide) (by decide) (by decide)).1,
    (C13_GetCronFrequency_rejects_other_codes { quarterlyJob with Frequency := "d" }
      (by decide) (by decide) (by decide) (by decide) (by decide) (by decide)).1⟩

theorem IsValidOccurrences_iff (i : Int) : IsValidOccurrences i = none ↔ (i = -1 ∨ i ≥ 1) := by
  unfold IsValidOccurrences
  split_ifs with h
  · simp only [true_iff]
    omega
  · simp only [reduceCtorEq, false_iff]
    omega

/-- C14.  `IsValidOccurrences(i)` returns no error exactly when `i = -1` or
`i ≥ 1`; `0` and every integer `≤ -2` are rejected. -/
theorem C14_IsValidOccurrences_iff (i : Int) :
    (IsValidOccurrences i = none ↔ (i = -1 ∨ i ≥ 1)) ∧
    IsValidOccurrences 0 ≠ none ∧
    (i ≤ -2 → IsValidOccurrences i ≠ none) := by
  refine ⟨IsValidOccurrences_iff i, ?_, ?_⟩
  · rw [Ne, IsValidOccurrences_iff]
    omega
  · intro hi
    rw [Ne, IsValidOccurrences_iff]
    omega

theorem IsValidFrequency_iff (f : String) :
    IsValidFrequency f = none ↔
      (f = "m" ∨ f = "H" ∨ f = "D" ∨ f = "W" ∨ f = "M" ∨ f = "Y") := by
  unfold IsValidFrequency validFrequencies
  by_cases hW : f = "W"
  · subst hW; decide
  by_cases hM : f = "M"
  · subst hM; decide
  by_cases hD : f = "D"
  · subst hD; decide
  by_cases hH : f = "H"
  · subst hH; decide
  by_cases hm : f = "m"
  · subst hm; decide
  by_cases hY : f = "Y"
  · subst hY; decide
  have bW : (f == "W") = false := beq_false_of_ne hW
  have bM : (f == "M") = false := beq_false_of_ne hM
  have bD : (f == "D") = false := beq_false_of_ne hD
  have bH : (f == "H") = false := beq_false_of_ne hH
  have bm : (f == "m") = false := beq_false_of_ne hm
  have bY : (f == "Y") = false := beq_false_of_ne hY
  simp [List.lookup, hW, hM, hD, hH, hm, hY, bW, bM, bD, bH, bm, bY]

/-- C15.  `IsValidFrequency(f)` returns no error exactly when `f` is one of the
six codes `m`, `H`, `D`, `W`, `M`, `Y`. -/
theorem C15_IsValidFrequency_iff (f : String) :
    IsValidFrequency f = none ↔
      (f = "m" ∨ f = "H" ∨ f = "D" ∨ f = "W" ∨ f = "M" ∨ f = "Y") :=
  IsValidFrequency_iff f

theorem validateDeployArgs_iff (args : List String) :
    validateDeployArgs args = none ↔
      ∃ s p, args = [s, p] ∧ HasPrefix p (filepathJoin ["/home/apps", s]) = true := by
  unfold validateDeployArgs
  split
  · rename_i s p
    split_ifs with h
    · simp only [reduceCtorEq, false_iff]
      rintro ⟨s1, p1, heq, hp⟩
      simp only [List.cons.injEq, and_true] at heq
      obtain ⟨rfl, rfl⟩ := heq
      rw [h] at hp
      exact Bool.noConfusion hp
    · simp only [true_iff]
      exact ⟨s, p, rfl, by simpa using h⟩
  · rename_i hne
    simp only [reduceCtorEq, false_iff]
    rintro ⟨s, p, rfl, _⟩
    exact hne s p rfl

theorem IsValidAction_iff (t : Task) :
    IsValidAction t = none ↔
      (t.Action = "deploy" ∧
        ∃ s p, t.Args = [s, p] ∧ HasPrefix p (filepathJoin ["/home/apps", s]) = true) := by
  unfold IsValidAction Tasks
  by_cases ha : t.Action = "deploy"
  · have hl : List.lookup t.Action [("deploy",
        ({ Execute := none, Verify := validateDeployArgs } : TaskHandler))] =
        some { Execute := none, Verify := validateDeployArgs } := by
      rw [ha]; rfl
    rw [hl]
    simp only [ha, true_and]
    rw [← validateDeployArgs_iff]
    cases hv : validateDeployArgs t.Args <;> simp
  · have hl : List.lookup t.Action [("deploy",
        ({ Execute := none, Verify := validateDeployArgs } : TaskHandler))] = none := by
      have hb : (t.Action == "deploy") = false := beq_false_of_ne ha
      simp [List.lookup, hb]
    rw [hl]
    simp [ha]

/-- C16.  `IsValidAction(t)` returns no error exactly when `t.Action` is the
registered action `deploy` and `t.Args` has exactly two elements, the second
of which has the cleaned join of `/home/apps` and the first as its beginning.
The cases of `TestIsValidAction` come out as the test expects. -/
theorem C16_IsValidAction_iff (t : Task) :
    (IsValidAction t = none ↔
      (t.Action = "deploy" ∧
        ∃ s p, t.Args = [s, p] ∧ HasPrefix p (filepathJoin ["/home/apps", s]) = true)) ∧
    IsValidAction
      { JobID := 0, Action := "deploy", Args := ["civic-assistant",
          "/home/apps/civic-assistant"] } = none ∧
    IsValidAction
      { JobID := 0, Action := "deploy", Args := ["civic-assistant",
          "/home/apps/civic-assistant/preprod"] } = none ∧
    IsValidAction { JobID := 0, Action := "unknown", Args := ["aze", "aze"] } ≠ none ∧
    IsValidAction { JobID := 0, Action := "deploy", Args := ["aze", "aze"] } ≠ none ∧
    IsValidAction { JobID := 0, Action := "deploy", Args := [] } ≠ none :=
  ⟨IsValidAction_iff t, by decide, by decide, by decide, by decide, by decide⟩

/-! ## `Run`, on every repository -/

theorem Run_decrement_fails {σ : Type} (rr : RegisterInterface σ) (h : JobHandler) (w : World σ)
    (hocc : h.j.Occurrences ≠ -1) (n : Int) (err : Error)
    (hdec : (rr.DecrementJobOccurrences h.j.ID w.db).1 = (n, some err)) :
    h.Run rr w =
      (h, { w with db := (rr.DecrementJobOccurrences h.j.ID w.db).2,
                   calls := w.calls ++ [RepoCall.DecrementJobOccurrences h.j.ID],
                   logs := w.logs ++ [LogLine.runJob h.j.ID] ++
                     h.j.Workflow.map (fun v => LogLine.runTask v.Action v.JobID) ++
                     [LogLine.couldNotDecrement h.j.ID err] }) := by
  simp [JobHandler.Run, hocc, World.log, World.callDecrementJobOccurrences, hdec]

theorem Run_decrement_remaining {σ : Type} (rr : RegisterInterface σ) (h : JobHandler)
    (w : World σ) (hocc : h.j.Occurrences ≠ -1) (n : Int)
    (hdec : (rr.DecrementJobOccurrences h.j.ID w.db).1 = (n, none)) (hn : n ≠ 0) :
    h.Run rr w =
      (h, { w with db := (rr.DecrementJobOccurrences h.j.ID w.db).2,
                   calls := w.calls ++ [RepoCall.DecrementJobOccurrences h.j.ID],
                   logs := w.logs ++ [LogLine.runJob h.j.ID] ++
                     h.j.Workflow.map (fun v => LogLine.runTask v.Action v.JobID) ++
                     [LogLine.occurrencesDecrement h.j.ID n] }) := by
  simp [JobHandler.Run, hocc, World.log, World.callDecrementJobOccurrences, hdec, hn]

/-- C20.  A job with `occurrences ≠ -1`: when `DecrementJobOccurrences` returns
an error, whichever it is, and likewise when it returns a remaining count
above zero, `Run` makes the decrement call and no other call on the
repository (no `DeleteJob`), and leaves the handler, its periodic trigger
included, as it was: `Stop` is not called. -/
theorem C20_Run_soft_failure_and_remaining {σ : Type} (rr : RegisterInterface σ)
    (h : JobHandler) (w : World σ) (hocc : h.j.Occurrences ≠ -1) :
    (∀ (n : Int) (err : Error),
      (rr.DecrementJobOccurrences h.j.ID w.db).1 = (n, some err) →
        (h.Run rr w).2.calls = w.calls ++ [RepoCall.DecrementJobOccurrences h.j.ID] ∧
        (h.Run rr w).1 = h ∧ (h.Run rr w).1.cs.stopCalls = h.cs.stopCalls ∧
        (h.Run rr w).1.cs.running = h.cs.running) ∧
    (∀ n : Int,
      (rr.DecrementJobOccurrences h.j.ID w.db).1 = (n, none) → 0 < n →
        (h.Run rr w).2.calls = w.calls ++ [RepoCall.DecrementJobOccurrences h.j.ID] ∧
        (h.Run rr w).1 = h ∧ (h.Run rr w).1.cs.stopCalls = h.cs.stopCalls ∧
        (h.Run rr w).1.cs.running = h.cs.running) := by
  constructor
  · intro n err hdec
    rw [Run_decrement_fails rr h w hocc n err hdec]
    exact ⟨rfl, rfl, rfl, rfl⟩
  · intro n hdec hn
    rw [Run_decrement_remaining rr h w hocc n hdec (by omega)]
    exact ⟨rfl, rfl, rfl, rfl⟩

/-- Witness of C20: on the SQLite-backed storage, a run of a job that is not
stored (the decrement finds no row) and a run of a job with three occurrences
left (the decrement leaves two). -/
theorem C20_Run_soft_failure_and_remaining_witness :
    (orphanHandler.j.Occurrences ≠ -1 ∧ threeRunsHandler.j.Occurrences ≠ -1 ∧
      ((NewRegisterRepository 0).DecrementJobOccurrences orphanHandler.j.ID
        (World.init threeRunsDB).db).1 = (0, some ("no job found with id: " ++ toString (99 : Int)))
      ∧ ((NewRegisterRepository 0).DecrementJobOccurrences threeRunsHandler.j.ID
        (World.init threeRunsDB).db).1 = (2, none)) ∧
    (orphanHandler.Run (NewRegisterRepository 0) (World.init threeRunsDB)).2.calls =
      (World.init threeRunsDB).calls ++ [RepoCall.DecrementJobOccurrences orphanHandler.j.ID] ∧
    (threeRunsHandler.Run (NewRegisterRepository 0) (World.init threeRunsDB)).1 =
      threeRunsHandler :=
  ⟨⟨by decide, by decide, rfl, by decide⟩,
    ((C20_Run_soft_failure_and_remaining (NewRegisterRepository 0) orphanHandler
      (World.init threeRunsDB) (by decide)).1 0 _ rfl).1,
    ((C20_Run_soft_failure_and_remaining (NewRegisterRepository 0) threeRunsHandler
      (World.init threeRunsDB) (by decide)).2 2 (by decide) (by decide)).2.1⟩

/-- C18, at a failing input.  A job whose workflow is the one task `deploy` with
the arguments `api` and `/home/apps/api`, three occurrences left: the handler
registered for `deploy` has no execute function, and one run of the job does
nothing for the task but log it.  All `Run` does is log the job, log the
task, make the decrement call and log the two occurrences that remain; the
handler, the timers and the clock are as they were. -/
theorem C18_Run_invokes_no_executor :
    deployHandler.j.Workflow.map (fun v => (v.Action, v.Args)) =
      [("deploy", ["api", "/home/apps/api"])] ∧
    (Tasks.lookup "deploy").map (fun a => a.Execute.isSome) = some false ∧
    (deployHandler.Run (NewRegisterRepository 0) (World.init threeRunsDB)).1 = deployHandler ∧
    (deployHandler.Run (NewRegisterRepository 0) (World.init threeRunsDB)).2.logs =
      [LogLine.runJob 4, LogLine.runTask "deploy" 4, LogLine.occurrencesDecrement 4 2] ∧
    (deployHandler.Run (NewRegisterRepository 0) (World.init threeRunsDB)).2.calls =
      [RepoCall.DecrementJobOccurrences 4] ∧
    (deployHandler.Run (NewRegisterRepository 0) (World.init threeRunsDB)).2.db =
      { threeRunsDB with jobs := [{ threeRunsRow with occurrences := 2 }] } ∧
    (deployHandler.Run (NewRegisterRepository 0) (World.init threeRunsDB)).2.timers = [] ∧
    (deployHandler.Run (NewRegisterRepository 0) (World.init threeRunsDB)).2.registerCalls = [] ∧
    (deployHandler.Run (NewRegisterRepository 0) (World.init threeRunsDB)).2.ticks = 0 := by
  decide

/-- On every repository, one execution of `Run` logs the run of the job and then
one line per task of the workflow, in workflow order, with the task's action
key and job identifier; every line it logs after those belongs to the
bookkeeping of the occurrences. -/
theorem Run_logs_each_task_in_order {σ : Type} (rr : RegisterInterface σ) (h : JobHandler)
    (w : World σ) :
    ∃ rest : List LogLine,
      (h.Run rr w).2.logs =
        w.logs ++ [LogLine.runJob h.j.ID] ++
          h.j.Workflow.map (fun v => LogLine.runTask v.Action v.JobID) ++ rest ∧
      ∀ l ∈ rest, l.isBookkeeping = true := by
  by_cases hocc : h.j.Occurrences = -1
  · rw [Run_unbounded rr h w hocc]
    exact ⟨[], by simp, by simp⟩
  · rcases hdec : (rr.DecrementJobOccurrences h.j.ID w.db).1 with ⟨n, err⟩
    cases err with
    | some e =>
      rw [Run_decrement_fails rr h w hocc n e hdec]
      exact ⟨[LogLine.couldNotDecrement h.j.ID e], rfl, by simp [LogLine.isBookkeeping]⟩
    | none =>
      by_cases hn : n = 0
      · subst hn
        rcases hdel : (rr.DeleteJob h.j.ID (rr.DecrementJobOccurrences h.j.ID w.db).2).1 with
          _ | e
        · refine ⟨[LogLine.occurrencesDecrement h.j.ID 0, LogLine.jobDeletion h.j.ID],
            ?_, by simp [LogLine.isBookkeeping]⟩
          simp [JobHandler.Run, hocc, World.log, World.callDecrementJobOccurrences,
            World.callDeleteJob, hdec, hdel]
        · refine ⟨[LogLine.occurrencesDecrement h.j.ID 0, LogLine.jobDeletion h.j.ID,
            LogLine.couldNotDelete h.j.ID e], ?_, by simp [LogLine.isBookkeeping]⟩
          simp [JobHandler.Run, hocc, World.log, World.callDecrementJobOccurrences,
            World.callDeleteJob, hdec, hdel]
      · rw [Run_decrement_remaining rr h w hocc n hdec hn]
        exact ⟨[LogLine.occurrencesDecrement h.j.ID n], rfl, by simp [LogLine.isBookkeeping]⟩

/-! ## The dispatcher -/

/-- With a delay above zero, a `RegisterJob` call that returns no error has armed
exactly one deferred trigger, with that delay, for the job it was given: on
registration the job under the identifier returned, on reload the job with
the recurrence expression `SetCronFrequency` gives it. -/
theorem RegisterJob_arms_once {σ : Type} (rr : RegisterInterface σ) (j : Job) (d : Duration)
    (isReload : Bool) (w : World σ) (hd : 0 < d)
    (hok : (RegisterJob rr j d isReload w).1.2 = none) :
    ∃ j1 : Job,
      (RegisterJob rr j d isReload w).2.timers = w.timers ++ [{ delay := d, job := j1 }] ∧
      (isReload = false → j1 = { j with ID := (RegisterJob rr j d isReload w).1.1 }) ∧
      (isReload = true → j1 = (SetCronFrequency j).1) := by
  cases isReload with
  | false =>
    simp only [RegisterJob, if_true, gt_iff_lt, hd] at hok ⊢
    split at hok
    · simp at hok
    · rename_i jobID w1 heq
      have hw : w1.timers = w.timers := by
        simp only [World.callRegisterJob, World.enterRegisterJob, Prod.mk.injEq] at heq
        rw [← heq.2]
      exact ⟨{ j with ID := jobID }, by simp only [World.afterFunc, hw], (fun _ => rfl),
        (fun h => by simp at h)⟩
  | true =>
    simp only [RegisterJob, Bool.true_eq_false, if_false, gt_iff_lt, hd, if_true] at hok ⊢
    split at hok
    · simp at hok
    · rename_i j1 heq
      refine ⟨j1, rfl, (fun h => by simp at h), (fun _ => ?_)⟩
      rw [heq]

/-- C17, at a failing input.  A job whose schedule is the very instant the clock
reads: `VerifyDate` accepts it with the delay `0`; `RegisterJob` called with
that delay stores the job and returns its identifier without error, and arms
no deferred trigger.  Through `Register` the caller gets status 200 while no
trigger is armed. -/
theorem C17_zero_delay_succeeds_unarmed :
    (VerifyDate envMonday16 (Date 2024 1 8 16 0 0 0 0) (World.init emptyDB)).1 = (0, none) ∧
    (RegisterJob (NewRegisterRepository 0) oneShotJob 0 false (World.init emptyDB)).1 =
      (1, none) ∧
    (RegisterJob (NewRegisterRepository 0) oneShotJob 0 false (World.init emptyDB)).2.timers
      = [] ∧
    ((RegisterJob (NewRegisterRepository 0) oneShotJob 0 false
      (World.init emptyDB)).2.db.findJob 1).map (fun r => r.occurrences) = some 1 ∧
    (RegisterController.Register envMonday16 parseMonday16 (NewRegisterRepository 0)
      { Method := "POST", Body := some (Except.ok oneShotPayload) }
      (World.init emptyDB)).1.Status = 200 ∧
    (RegisterController.Register envMonday16 parseMonday16 (NewRegisterRepository 0)
      { Method := "POST", Body := some (Except.ok oneShotPayload) }
      (World.init emptyDB)).2.timers = [] ∧
    (RegisterController.Register envMonday16 parseMonday16 (NewRegisterRepository 0)
      { Method := "POST", Body := some (Except.ok oneShotPayload) }
      (World.init emptyDB)).2.calls.length = 1 := by
  decide

/-! ## `RetrieveJobs` groups the rows by job identifier -/

theorem retrieveStep_keys (m : List (Int × Job)) (r : JoinedRow) :
    (RegisterRepository.retrieveStep m r).map (fun e => e.1) =
      if r.id ∈ m.map (fun e => e.1) then m.map (fun e => e.1)
      else m.map (fun e => e.1) ++ [r.id] := by
  have hany : (m.any (fun e => decide (e.1 = r.id)) = true) ↔ r.id ∈ m.map (fun e => e.1) := by
    simp only [List.any_eq_true, decide_eq_true_eq, List.mem_map]
  unfold RegisterRepository.retrieveStep
  by_cases hin : r.id ∈ m.map (fun e => e.1)
  · rw [if_pos (hany.mpr hin), if_pos hin]
    split_ifs
    · rw [List.map_map]
      apply List.map_congr_left
      intro e _
      simp only [Function.comp]
      split_ifs <;> rfl
    · rfl
  · rw [if_neg (fun h => hin (hany.mp h)), if_neg hin]
    split_ifs <;> simp only [List.map_append, List.map_cons, List.map_nil]

theorem tasksOf_append (pre : List JoinedRow) (r : JoinedRow) (id : Int) :
    tasksOf (pre ++ [r]) id =
      tasksOf pre id ++
        (if r.id = id ∧ r.action.isSome = true then [(RegisterRepository.scanRow r).2] else []) := by
  unfold tasksOf
  rw [List.filter_append, List.map_append]
  congr 1
  by_cases h : r.id = id ∧ r.action.isSome = true
  · rw [if_pos h]
    simp [List.filter, h.1, h.2]
  · rw [if_neg h]
    have : (decide (r.id = id) && r.action.isSome) = false := by
      rw [Bool.and_eq_false_iff]
      by_cases h1 : r.id = id
      · right
        simpa using fun h2 => h ⟨h1, h2⟩
      · left
        simpa using h1
    simp [List.filter, this]

theorem retrieveStep_grouped (pre : List JoinedRow) (m : List (Int × Job)) (r : JoinedRow)
    (h : GroupedBy pre m) : GroupedBy (pre ++ [r]) (RegisterRepository.retrieveStep m r) := by
  obtain ⟨hnd, hkeys, hjobs⟩ := h
  have hk := retrieveStep_keys m r
  refine ⟨?_, ?_, ?_⟩
  · rw [hk]
    split_ifs with hin
    · exact hnd
    · exact List.Nodup.append hnd (List.nodup_singleton _)
        (by
          intro a ha hb
          rw [List.mem_singleton] at hb
          subst hb
          exact hin ha)
  · intro id
    rw [hk, List.map_append, List.mem_append, ← hkeys id]
    simp only [List.map_cons, List.map_nil, List.mem_singleton]
    split_ifs with hin
    · constructor
      · exact Or.inl
      · rintro (h1 | h1)
        · exact h1
        · rw [h1]; exact hin
    · rw [List.mem_append, List.mem_singleton]
  · intro e he
    have hany : (m.any (fun e => decide (e.1 = r.id)) = true) ↔ r.id ∈ m.map (fun e => e.1) := by
      simp only [List.any_eq_true, decide_eq_true_eq, List.mem_map]
    unfold RegisterRepository.retrieveStep at he
    rw [tasksOf_append]
    by_cases hin : r.id ∈ m.map (fun e => e.1)
    · rw [if_pos (hany.mpr hin)] at he
      by_cases hact : r.action.isSome = true
      · rw [if_pos hact, List.mem_map] at he
        obtain ⟨a, ha, rfl⟩ := he
        obtain ⟨h1, h2⟩ := hjobs a ha
        by_cases haid : a.1 = r.id
        · rw [if_pos haid]
          simp only
          rw [if_pos ⟨haid.symm, hact⟩, h2]
          exact ⟨h1, rfl⟩
        · rw [if_neg haid, if_neg (fun hc => haid hc.1.symm), List.append_nil]
          exact ⟨h1, h2⟩
      · rw [if_neg hact] at he
        obtain ⟨h1, h2⟩ := hjobs e he
        rw [if_neg (fun hc => hact hc.2), List.append_nil]
        exact ⟨h1, h2⟩
    · rw [if_neg (fun hc => hin (hany.mp hc))] at he
      have hpre : ∀ id, id = r.id → tasksOf pre id = [] := by
        intro id hid
        unfold tasksOf
        rw [List.map_eq_nil_iff, List.filter_eq_nil_iff]
        intro x hx hcond
        apply hin
        rw [hkeys r.id, List.mem_map]
        simp only [Bool.and_eq_true, decide_eq_true_eq] at hcond
        exact ⟨x, hx, hcond.1.trans hid⟩
      by_cases hact : r.action.isSome = true
      · rw [if_pos hact, List.mem_append, List.mem_singleton] at he
        rcases he with he | rfl
        · obtain ⟨h1, h2⟩ := hjobs e he
          have hne : ¬ (r.id = e.1 ∧ r.action.isSome = true) := by
            rintro ⟨hc, _⟩
            apply hin
            rw [hc]
            exact List.mem_map_of_mem (fun e => e.1) he
          rw [if_neg hne, List.append_nil]
          exact ⟨h1, h2⟩
        · dsimp only
          rw [if_pos ⟨rfl, hact⟩, hpre r.id rfl]
          exact ⟨rfl, rfl⟩
      · rw [if_neg hact, List.mem_append, List.mem_singleton] at he
        rcases he with he | rfl
        · obtain ⟨h1, h2⟩ := hjobs e he
          rw [if_neg (fun hc => hact hc.2), List.append_nil]
          exact ⟨h1, h2⟩
        · dsimp only
          rw [if_neg (fun hc => hact hc.2), hpre r.id rfl]
          exact ⟨rfl, rfl⟩

theorem foldl_retrieveStep_grouped (rows pre : List JoinedRow) (m : List (Int × Job))
    (h : GroupedBy pre m) :
    GroupedBy (pre ++ rows) (rows.foldl RegisterRepository.retrieveStep m) := by
  induction rows generalizing pre m with
  | nil => simpa using h
  | cons r rest ih =>
    have := ih (pre ++ [r]) _ (retrieveStep_grouped pre m r h)
    simpa using this

theorem scanRows_grouped (rows : List JoinedRow) :
    ((RegisterRepository.scanRows rows).map (fun j => j.ID)).Nodup ∧
    (∀ id, id ∈ (RegisterRepository.scanRows rows).map (fun j => j.ID) ↔
      id ∈ rows.map (fun r => r.id)) ∧
    (∀ j ∈ RegisterRepository.scanRows rows, j.Workflow = tasksOf rows j.ID) := by
  have hinit : GroupedBy [] [] :=
    ⟨List.nodup_nil, fun id => by simp, fun e he => by cases he⟩
  obtain ⟨hnd, hkeys, hjobs⟩ := foldl_retrieveStep_grouped rows [] [] hinit
  simp only [List.nil_append] at hnd hkeys hjobs
  have hids : (RegisterRepository.scanRows rows).map (fun j => j.ID) =
      (rows.foldl RegisterRepository.retrieveStep []).map (fun e => e.1) := by
    unfold RegisterRepository.scanRows
    rw [List.map_map]
    apply List.map_congr_left
    intro e he
    exact (hjobs e he).1
  refine ⟨by rw [hids]; exact hnd, fun id => by rw [hids]; exact hkeys id, ?_⟩
  intro j hj
  unfold RegisterRepository.scanRows at hj
  rw [List.mem_map] at hj
  obtain ⟨e, he, rfl⟩ := hj
  obtain ⟨h1, h2⟩ := hjobs e he
  rw [h2, h1]

/-! ## A reload pass arms at most one trigger per job of its list -/

theorem SetCronFrequency_ID (j j1 : Job) (h : SetCronFrequency j = (j1, none)) : j1.ID = j.ID := by
  have hid := SetCronFrequency_fields j
  rw [h] at hid
  simp only at hid
  rw [hid]

theorem RegisterJob_reload_timers {σ : Type} (rr : RegisterInterface σ) (j : Job)
    (d : Duration) (w : World σ) :
    ∃ new : List Timer, (RegisterJob rr j d true w).2.timers = w.timers ++ new ∧
      List.Sublist (new.map (fun t => t.job.ID)) [j.ID] := by
  rw [RegisterJob_reload_eq]
  split_ifs with hok hd
  · refine ⟨[{ delay := d, job := (SetCronFrequency j).1 }], rfl, ?_⟩
    have hj1 : (SetCronFrequency j).1.ID = j.ID := by
      rw [SetCronFrequency_fields j]
    simp only [List.map_cons, List.map_nil, hj1]
    exact List.Sublist.refl _
  · exact ⟨[], by simp [World.enterRegisterJob], by simp⟩
  · exact ⟨[], by simp [World.enterRegisterJob], by simp⟩

theorem reloadLoop_timers {σ : Type} (env : Env) (rr : RegisterInterface σ) (now : Time)
    (jobs : List Job) (w : World σ) :
    ∃ new : List Timer, (reloadLoop env rr now jobs w).2.timers = w.timers ++ new ∧
      List.Sublist (new.map (fun t => t.job.ID)) (jobs.map (fun j => j.ID)) := by
  induction jobs generalizing w with
  | nil => exact ⟨[], by simp [reloadLoop], by simp⟩
  | cons job rest ih =>
    simp only [reloadLoop]
    split_ifs
    · split
      · exact ⟨[], by simp [World.timeUntil, World.now], by simp⟩
      · rename_i job2 heq
        have hj2 : job2.ID = job.ID := by
          have h := SetCronFrequency_ID _ job2 heq
          exact h
        obtain ⟨n1, h1, s1⟩ := RegisterJob_reload_timers rr job2
          (World.timeUntil env (calculateNextValidSchedule env.loc (World.now env w).1 job).1
            { (World.now env w).2 with
              logs := (World.now env w).2.logs ++
                (calculateNextValidSchedule env.loc (World.now env w).1 job).2 }).1
          ((World.timeUntil env (calculateNextValidSchedule env.loc (World.now env w).1 job).1
            { (World.now env w).2 with
              logs := (World.now env w).2.logs ++
                (calculateNextValidSchedule env.loc (World.now env w).1 job).2 }).2.log
            (LogLine.rescheduled job2.Label job2.ID
              (calculateNextValidSchedule env.loc (World.now env w).1 job).1
              (World.timeUntil env (calculateNextValidSchedule env.loc (World.now env w).1 job).1
                { (World.now env w).2 with
                  logs := (World.now env w).2.logs ++
                    (calculateNextValidSchedule env.loc (World.now env w).1 job).2 }).1))
        obtain ⟨n2, h2, s2⟩ := ih (RegisterJob rr job2 _ true _).2
        rw [h2, h1]
        refine ⟨n1 ++ n2, by simp [World.timeUntil, World.now, World.log], ?_⟩
        rw [List.map_append, List.map_cons]
        rw [hj2] at s1
        exact List.Sublist.append s1 s2
    · obtain ⟨n1, h1, s1⟩ := RegisterJob_reload_timers rr job
        (World.timeUntil env job.Schedule w).1
        ((World.timeUntil env job.Schedule w).2.log
          (LogLine.scheduledToRun job.ID (job.Schedule.In env.loc)
            (World.timeUntil env job.Schedule w).1))
      obtain ⟨n2, h2, s2⟩ := ih (RegisterJob rr job _ true _).2
      rw [h2, h1]
      refine ⟨n1 ++ n2, by simp [World.timeUntil, World.now, World.log], ?_⟩
      rw [List.map_append, List.map_cons]
      exact List.Sublist.append s1 s2

theorem GetJobs_frame {σ : Type} (rr : RegisterInterface σ) (w : World σ) :
    (GetJobs rr w).2.timers = w.timers ∧
    ((GetJobs rr w).1.2 = none → (GetJobs rr w).1.1 = (rr.RetrieveJobs w.db).1.1) := by
  unfold GetJobs World.callRetrieveJobs
  rcases hr : rr.RetrieveJobs w.db with ⟨⟨jobs, err⟩, db1⟩
  cases err
  · exact ⟨rfl, fun _ => rfl⟩
  · refine ⟨rfl, fun h => ?_⟩
    simp at h

theorem ReloadJobs_timers {σ : Type} (env : Env) (rr : RegisterInterface σ) (w : World σ) :
    ∃ new : List Timer, (ReloadJobs env rr w).2.timers = w.timers ++ new ∧
      List.Sublist (new.map (fun t => t.job.ID))
        ((rr.RetrieveJobs w.db).1.1.map (fun j => j.ID)) := by
  obtain ⟨ht, hj⟩ := GetJobs_frame rr w
  unfold ReloadJobs
  rcases hget : GetJobs rr w with ⟨⟨jobs, err⟩, w1⟩
  rw [hget] at ht hj
  cases err with
  | some e => exact ⟨[], by simpa using ht, by simp⟩
  | none =>
    simp only at ht hj ⊢
    obtain ⟨new, h1, s1⟩ := reloadLoop_timers env rr (World.now env w1).1 jobs (World.now env w1).2
    rw [h1]
    refine ⟨new, by simp [World.now, ht], ?_⟩
    rw [← hj trivial]
    exact s1

/-! ## Registration rejects an invalid submission before it stores or arms -/

theorem ValidateJob_none_iff (j : Job) :
    ValidateJob j = none ↔
      (IsValidFrequency j.Frequency = none ∧ IsValidOccurrences j.Occurrences = none ∧
        (∀ t ∈ j.Workflow, IsValidAction t = none) ∧ j.Label ≠ "") := by
  unfold ValidateJob
  cases hf : IsValidFrequency j.Frequency with
  | some e => simp
  | none =>
    cases ho : IsValidOccurrences j.Occurrences with
    | some e => simp
    | none =>
      cases hw : j.Workflow.findSome? IsValidAction with
      | some e =>
        simp only [reduceCtorEq, true_and, false_iff, not_and]
        intro hall
        rw [List.findSome?_eq_some_iff] at hw
        obtain ⟨l1, a, l2, hl, ha, _⟩ := hw
        have := hall a (by rw [hl]; simp)
        rw [this] at ha
        cases ha
      | none =>
        rw [List.findSome?_eq_none_iff] at hw
        simp only [true_and]
        split_ifs with hl
        · simp only [reduceCtorEq, false_iff, not_and, not_not]
          exact fun _ => hl
        · simp only [true_iff]
          exact ⟨hw, hl⟩

theorem Time.Sub_neg (t u : Time) (h : t.ns < u.ns) : t.Sub u < 0 := by
  unfold Time.Sub
  simp only [minDuration, maxDuration]
  split_ifs with h1 h2
  · show (-9223372036854775808 : Int) < 0
    omega
  · have h3 : (9223372036854775807 : Int) < t.ns - u.ns := h2
    omega
  · show t.ns - u.ns < (0 : Int)
    omega

theorem VerifyDate_past {σ : Type} (env : Env) (t : Time) (w : World σ)
    (hpast : t.ns < env.clock w.ticks) :
    VerifyDate env t w = ((0, some "provided date is in past"), { w with ticks := w.ticks + 1 })
    := by
  have hneg : (World.timeUntil env t w).1 < 0 := by
    simp only [World.timeUntil, World.now]
    exact Time.Sub_neg _ _ hpast
  simp only [VerifyDate, hneg, if_true]
  rfl

/-- C11.  A submitted job that fails validation: its frequency is none of the six
codes, or its occurrence count is neither `-1` nor at least `1`, or one of its
tasks names an unknown action or has malformed arguments, or its label is
empty, or its schedule lies before the instant the clock reads.  `Register`
answers it with status 400 and a message, having made no call on the
repository (no insert), armed no trigger, and left storage as it was. -/
theorem C11_invalid_submission_rejected {σ : Type} (env : Env)
    (parseInLocation : String → Option Time) (rr : RegisterInterface σ) (r : Request)
    (w : World σ) (j : Job)
    (hmethod : r.Method = "POST")
    (hparse : ParseBody parseInLocation r.Body = (j, none))
    (hbad : (j.Frequency ≠ "m" ∧ j.Frequency ≠ "H" ∧ j.Frequency ≠ "D" ∧ j.Frequency ≠ "W" ∧
          j.Frequency ≠ "M" ∧ j.Frequency ≠ "Y") ∨
        ¬ (j.Occurrences = -1 ∨ j.Occurrences ≥ 1) ∨
        (∃ t ∈ j.Workflow, t.Action ≠ "deploy") ∨
        (∃ t ∈ j.Workflow, ¬ ∃ s p, t.Args = [s, p] ∧
          HasPrefix p (filepathJoin ["/home/apps", s]) = true) ∨
        j.Label = "" ∨
        j.Schedule.ns < env.clock w.ticks) :
    ∃ msg : String,
      (RegisterController.Register env parseInLocation rr r w).1 = SendResponseMessage 400 msg ∧
      (RegisterController.Register env parseInLocation rr r w).2.calls = w.calls ∧
      (RegisterController.Register env parseInLocation rr r w).2.timers = w.timers ∧
      (RegisterController.Register env parseInLocation rr r w).2.db = w.db := by
  have hm : IsMethodAllowed r.Method "POST" = none := by
    simp only [IsMethodAllowed, hmethod, if_true]
  cases hv : ValidateJob j with
  | some e =>
    refine ⟨"could not validate body: " ++ e, ?_⟩
    simp only [RegisterController.Register, hm, hparse, hv]
    refine ⟨?_, ?_, ?_, ?_⟩ <;> trivial
  | none =>
    obtain ⟨hf, ho, hw, hl⟩ := (ValidateJob_none_iff j).mp hv
    have hpast : j.Schedule.ns < env.clock w.ticks := by
      rcases hbad with h | h | h | h | h | h
      · rw [IsValidFrequency_iff] at hf
        obtain ⟨h1, h2, h3, h4, h5, h6⟩ := h
        rcases hf with e | e | e | e | e | e <;> contradiction
      · exact absurd ((IsValidOccurrences_iff _).mp ho) h
      · obtain ⟨t, ht, hne⟩ := h
        exact absurd ((IsValidAction_iff t).mp (hw t ht)).1 hne
      · obtain ⟨t, ht, hne⟩ := h
        exact absurd ((IsValidAction_iff t).mp (hw t ht)).2 hne
      · exact absurd h hl
      · exact h
    refine ⟨"date is invalid: " ++ "provided date is in past", ?_⟩
    simp only [RegisterController.Register, hm, hparse, hv, VerifyDate_past env j.Schedule w hpast]
    refine ⟨?_, ?_, ?_, ?_⟩ <;> trivial

/-- Witness of C11: the submission of a valid job but for its frequency `Q`, on
an empty database. -/
theorem C11_invalid_submission_rejected_witness :
    (quarterlyRequest.Method = "POST" ∧
      ParseBody parseMonday16 quarterlyRequest.Body =
        ({ oneShotJob with Frequency := "Q", CronTime := "" }, none) ∧
      ({ oneShotJob with Frequency := "Q", CronTime := "" } : Job).Frequency ≠ "m") ∧
    ∃ msg : String,
      (RegisterController.Register envMonday15 parseMonday16 (NewRegisterRepository 0)
        quarterlyRequest (World.init emptyDB)).1 = SendResponseMessage 400 msg ∧
      (RegisterController.Register envMonday15 parseMonday16 (NewRegisterRepository 0)
        quarterlyRequest (World.init emptyDB)).2.calls = (World.init emptyDB).calls ∧
      (RegisterController.Register envMonday15 parseMonday16 (NewRegisterRepository 0)
        quarterlyRequest (World.init emptyDB)).2.timers = (World.init emptyDB).timers ∧
      (RegisterController.Register envMonday15 parseMonday16 (NewRegisterRepository 0)
        quarterlyRequest (World.init emptyDB)).2.db = (World.init emptyDB).db :=
  ⟨⟨by decide, by decide, by decide⟩,
    C11_invalid_submission_rejected envMonday15 parseMonday16 (NewRegisterRepository 0)
      quarterlyRequest (World.init emptyDB) { oneShotJob with Frequency := "Q", CronTime := "" }
      (by decide) (by decide)
      (Or.inl ⟨by decide, by decide, by decide, by decide, by decide, by decide⟩)⟩

/-! ## Reload and the recurrence expression -/

/-- C21, at a failing input.  Stored job 7 with frequency `Q` and five occurrences
left, due in an hour: `RegisterJob` called with `isReload = true` returns the
error that the recurrence expression could not be reset, and `ReloadJobs`,
which takes the branch of a schedule still in the future and drops that
result, returns no error and has armed nothing. -/
theorem C21_reload_swallows_error_of_future_job :
    (RegisterRepository.RetrieveJobs quarterlyFutureDB).1 = ([quarterlyFutureJob], none) ∧
    quarterlyFutureJob.Schedule.Before (World.now envMonday15 (World.init quarterlyFutureDB)).1
      = false ∧
    (RegisterJob (NewRegisterRepository 0) quarterlyFutureJob (Hour - 1000) true
      (World.init quarterlyFutureDB)).1 = (0, some "could not reset cron frequency") ∧
    (ReloadJobs envMonday15 (NewRegisterRepository 0) (World.init quarterlyFutureDB)).1 = none ∧
    (ReloadJobs envMonday15 (NewRegisterRepository 0) (World.init quarterlyFutureDB)).2.timers
      = [] := by
  decide

/-- C22.  `ValidateJob(j)` returns no error exactly when `IsValidFrequency`
accepts the frequency, `IsValidOccurrences` accepts the occurrence count,
`IsValidAction` accepts every task of the workflow and the label is not
empty; a job with an empty workflow that meets the other three conditions is
accepted. -/
theorem C22_ValidateJob_iff (j : Job) :
    (ValidateJob j = none ↔
      (IsValidFrequency j.Frequency = none ∧ IsValidOccurrences j.Occurrences = none ∧
        (∀ t ∈ j.Workflow, IsValidAction t = none) ∧ j.Label ≠ "")) ∧
    ((IsValidFrequency j.Frequency = none ∧ IsValidOccurrences j.Occurrences = none ∧
        j.Label ≠ "") → ValidateJob { j with Workflow := [] } = none) := by
  refine ⟨ValidateJob_none_iff j, ?_⟩
  rintro ⟨hf, ho, hl⟩
  rw [ValidateJob_none_iff]
  exact ⟨hf, ho, (fun t ht => by cases ht), hl⟩

theorem GetCronFrequency_ok_iff (j : Job) :
    (GetCronFrequency j).2 = none ↔ IsValidFrequency j.Frequency = none := by
  rw [IsValidFrequency_iff]
  unfold GetCronFrequency
  constructor
  · intro h
    split_ifs at h with h1 h2 h3 h4 h5 h6
    · exact Or.inl h1
    · exact Or.inr (Or.inl h2)
    · exact Or.inr (Or.inr (Or.inl h3))
    · exact Or.inr (Or.inr (Or.inr (Or.inl h4)))
    · exact Or.inr (Or.inr (Or.inr (Or.inr (Or.inl h5))))
    · exact Or.inr (Or.inr (Or.inr (Or.inr (Or.inr h6))))
  · rintro (h | h | h | h | h | h) <;> simp +decide only [h, if_true, if_false]

/-- C23.  For every job `ValidateJob` accepts, `SetCronFrequency` returns no error
and the job with a `CronTime` that is not empty and is the expression mapped
from its frequency; `GetCronFrequency` cannot fail on it, since it succeeds
exactly on the frequencies `IsValidFrequency` accepts and every occurrence
count `IsValidOccurrences` accepts passes the guard of `SetCronFrequency`. -/
theorem C23_SetCronFrequency_total_on_valid_jobs (j : Job) (hvalid : ValidateJob j = none) :
    (SetCronFrequency j).2 = none ∧
    (SetCronFrequency j).1 = { j with CronTime := (SetCronFrequency j).1.CronTime } ∧
    (SetCronFrequency j).1.CronTime ≠ "" ∧
    ((j.Frequency = "m" ∧ (SetCronFrequency j).1.CronTime = "@every 1m") ∨
      (j.Frequency = "H" ∧ (SetCronFrequency j).1.CronTime = "@hourly") ∨
      (j.Frequency = "D" ∧ (SetCronFrequency j).1.CronTime = "@daily") ∨
      (j.Frequency = "W" ∧ (SetCronFrequency j).1.CronTime = "@weekly") ∨
      (j.Frequency = "M" ∧ (SetCronFrequency j).1.CronTime = "@monthly") ∨
      (j.Frequency = "Y" ∧ (SetCronFrequency j).1.CronTime = "@yearly")) ∧
    (GetCronFrequency j).2 = none ∧
    (∀ k : Job, (GetCronFrequency k).2 = none ↔ IsValidFrequency k.Frequency = none) ∧
    (∀ i : Int, IsValidOccurrences i = none → (i > 0 ∨ i = -1)) := by
  obtain ⟨hf, ho, _, _⟩ := (ValidateJob_none_iff j).mp hvalid
  have hguard : j.Occurrences > 0 ∨ j.Occurrences = -1 := by
    have := (IsValidOccurrences_iff _).mp ho
    omega
  have hget : (GetCronFrequency j).2 = none := (GetCronFrequency_ok_iff j).mpr hf
  have hset : SetCronFrequency j = ((GetCronFrequency j).1, none) := by
    unfold SetCronFrequency
    rw [if_pos hguard]
    rcases hg : GetCronFrequency j with ⟨j1, e⟩
    rw [hg] at hget
    simp only at hget
    subst hget
    rfl
  have hexpr : (j.Frequency = "m" ∧ (GetCronFrequency j).1.CronTime = "@every 1m") ∨
      (j.Frequency = "H" ∧ (GetCronFrequency j).1.CronTime = "@hourly") ∨
      (j.Frequency = "D" ∧ (GetCronFrequency j).1.CronTime = "@daily") ∨
      (j.Frequency = "W" ∧ (GetCronFrequency j).1.CronTime = "@weekly") ∨
      (j.Frequency = "M" ∧ (GetCronFrequency j).1.CronTime = "@monthly") ∨
      (j.Frequency = "Y" ∧ (GetCronFrequency j).1.CronTime = "@yearly") := by
    rw [IsValidFrequency_iff] at hf
    unfold GetCronFrequency
    rcases hf with h | h | h | h | h | h <;> simp +decide only [h, if_true, if_false]
  refine ⟨by rw [hset], SetCronFrequency_fields j, ?_, by rw [hset]; exact hexpr, hget,
    GetCronFrequency_ok_iff, ?_⟩
  · rw [hset]
    rcases hexpr with h | h | h | h | h | h <;> rw [h.2] <;> decide
  · intro i hi
    have := (IsValidOccurrences_iff i).mp hi
    omega

/-- Witness of C23: the one-shot daily job, before its recurrence expression is set. -/
theorem C23_SetCronFrequency_total_on_valid_jobs_witness :
    ValidateJob { oneShotJob with CronTime := "" } = none ∧
    (SetCronFrequency { oneShotJob with CronTime := "" }).2 = none ∧
    (SetCronFrequency { oneShotJob with CronTime := "" }).1.CronTime ≠ "" :=
  ⟨by decide,
    (C23_SetCronFrequency_total_on_valid_jobs { oneShotJob with CronTime := "" } (by decide)).1,
    (C23_SetCronFrequency_total_on_valid_jobs { oneShotJob with CronTime := "" }
      (by decide)).2.2.1⟩

/-! ## The arguments of a task -/

/-- C24, at a failing input.  The task `deploy` for the service `a,b` with the
path `/home/apps/a,b` is accepted by `IsValidAction`; its two arguments are
stored as `a,b,/home/apps/a,b` and read back as four.  Through the
repository: the job registered with that task is retrieved with a task of
four arguments. -/
theorem C24_arguments_with_comma_do_not_survive :
    IsValidAction commaTask = none ∧
    stringsJoin commaTask.Args "," = "a,b,/home/apps/a,b" ∧
    stringsSplit (stringsJoin commaTask.Args ",") ',' = ["a", "b", "/home/apps/a", "b"] ∧
    stringsSplit (stringsJoin commaTask.Args ",") ',' ≠ commaTask.Args ∧
    ((RegisterRepository.RetrieveJobs
        (RegisterRepository.RegisterJob 0 commaJob emptyDB).2).1.1.map
      (fun j => j.Workflow.map (fun t => t.Args))) = [[["a", "b", "/home/apps/a", "b"]]] := by
  decide

/-- C25, at failing inputs.  `validateDeployArgs` accepts, for the service `api`,
the path `/home/apps/api2`, a sibling of the service's directory; for the
service `..` the path `/home/other`, outside `/home/apps`; and for the empty
service name the path `/home/appsX`. -/
theorem C25_accepted_path_outside_service_directory :
    filepathJoin ["/home/apps", "api"] = "/home/apps/api" ∧
    validateDeployArgs ["api", "/home/apps/api2"] = none ∧
    filepathJoin ["/home/apps", ".."] = "/home" ∧
    validateDeployArgs ["..", "/home/other"] = none ∧
    filepathJoin ["/home/apps", ""] = "/home/apps" ∧
    validateDeployArgs ["", "/home/appsX"] = none := by
  decide

/-! ## What does hold of the reload pass and of the argument encoding -/

theorem SetCronFrequency_bad_frequency (j : Job) (hocc : j.Occurrences > 0 ∨ j.Occurrences = -1)
    (hbad : IsValidFrequency j.Frequency ≠ none) :
    ∃ e, SetCronFrequency j = (j, some e) := by
  have hget : (GetCronFrequency j).2 ≠ none := fun h => hbad ((GetCronFrequency_ok_iff j).mp h)
  unfold SetCronFrequency
  rw [if_pos hocc]
  rcases hg : GetCronFrequency j with ⟨j1, e⟩
  rw [hg] at hget
  cases e with
  | none => exact absurd rfl hget
  | some e => exact ⟨e, rfl⟩

/-- A reload pass whose list holds a job with a schedule before the reading taken
at its start, an occurrence count that passes the guard of `SetCronFrequency`
and a frequency that is none of the six codes returns an error. -/
theorem reloadLoop_past_bad_frequency {σ : Type} (env : Env) (rr : RegisterInterface σ)
    (now : Time) (jobs : List Job) (w : World σ) (j : Job) (hj : j ∈ jobs)
    (hpast : j.Schedule.Before now = true)
    (hocc : j.Occurrences > 0 ∨ j.Occurrences = -1)
    (hbad : IsValidFrequency j.Frequency ≠ none) :
    (reloadLoop env rr now jobs w).1 ≠ none := by
  induction jobs generalizing w with
  | nil => cases hj
  | cons job rest ih =>
    rw [List.mem_cons] at hj
    simp only [reloadLoop]
    split_ifs with hb
    · split
      · simp
      · rename_i job2 heq
        rcases hj with rfl | hj
        · obtain ⟨e, he⟩ := SetCronFrequency_bad_frequency
            { j with Schedule :=
                Time.In (calculateNextValidSchedule env.loc (World.now env w).1 j).1 env.loc }
            hocc hbad
          rw [he] at heq
          simp at heq
        · exact ih _ hj
    · rcases hj with rfl | hj
      · exact absurd hpast hb
      · exact ih _ hj

theorem splitChar_piece (sep : Char) (p cur : List Char) (hp : sep ∉ p) :
    splitChar sep cur p = [cur.reverse ++ p] ∧
    ∀ rest, splitChar sep cur (p ++ sep :: rest) = (cur.reverse ++ p) :: splitChar sep [] rest := by
  induction p generalizing cur with
  | nil => simp [splitChar]
  | cons c cs ih =>
    have hc : c ≠ sep := fun h => hp (by rw [h]; exact List.mem_cons_self _ _)
    have hcs : sep ∉ cs := fun h => hp (List.mem_cons_of_mem _ h)
    obtain ⟨h1, h2⟩ := ih (c :: cur) hcs
    constructor
    · simp only [splitChar, hc, if_false, h1, List.reverse_cons, List.append_assoc,
        List.singleton_append]
    · intro rest
      have h3 := h2 rest
      rw [List.reverse_cons, List.append_assoc, List.singleton_append] at h3
      rw [List.cons_append, splitChar, if_neg hc, h3]

theorem intercalate_go_data (acc s : String) (l : List String) :
    (String.intercalate.go acc s l).data =
      acc.data ++ (l.map (fun a => s.data ++ a.data)).flatten := by
  induction l generalizing acc with
  | nil => simp [String.intercalate.go]
  | cons a t ih =>
    simp only [String.intercalate.go, ih, String.data_append, List.map_cons, List.flatten_cons,
      List.append_assoc]

theorem splitChar_joined (sep : Char) (a : List Char) (l : List String) (cur : List Char)
    (ha : sep ∉ a) (hl : ∀ b ∈ l, sep ∉ b.data) :
    (splitChar sep cur (a ++ (l.map (fun b => [sep] ++ b.data)).flatten)).map String.mk =
      String.mk (cur.reverse ++ a) :: l := by
  induction l generalizing a cur with
  | nil =>
    simp only [List.map_nil, List.flatten_nil, List.append_nil, (splitChar_piece sep a cur ha).1,
      List.map_cons]
  | cons b t ih =>
    have hb : sep ∉ b.data := hl b (List.mem_cons_self _ _)
    have ht : ∀ c ∈ t, sep ∉ c.data := fun c hc => hl c (List.mem_cons_of_mem _ hc)
    simp only [List.map_cons, List.flatten_cons, List.singleton_append, List.cons_append,
      List.nil_append, (splitChar_piece sep a cur ha).2]
    have := ih b.data [] hb ht
    simp only [List.singleton_append, List.reverse_nil, List.nil_append] at this
    rw [this]

/-- For a list of arguments that is not empty and none of which contains a comma,
splitting at the commas what joining with commas gave returns the list. -/
theorem stringsSplit_stringsJoin (args : List String) (hne : args ≠ [])
    (hcomma : ∀ a ∈ args, ',' ∉ a.data) :
    stringsSplit (stringsJoin args ",") ',' = args := by
  cases args with
  | nil => exact absurd rfl hne
  | cons a t =>
    unfold stringsSplit stringsJoin
    simp only [String.intercalate, intercalate_go_data]
    have h := splitChar_joined ',' a.data t [] (hcomma a (List.mem_cons_self _ _))
      (fun b hb => hcomma b (List.mem_cons_of_mem _ hb))
    simpa using h

/-! ## The calls of `RegisterJob` that a reload pass makes -/

theorem SetCronFrequency_error (j : Job) (h : (SetCronFrequency j).2 ≠ none) :
    (j.Occurrences > 0 ∨ j.Occurrences = -1) ∧ IsValidFrequency j.Frequency ≠ none := by
  unfold SetCronFrequency at h
  split_ifs at h with hocc
  · refine ⟨hocc, fun hv => ?_⟩
    have hg := (GetCronFrequency_ok_iff j).mpr hv
    rcases hget : GetCronFrequency j with ⟨j1, e⟩
    rw [hget] at hg h
    simp only at hg
    subst hg
    simp at h
  · simp at h

theorem RegisterJob_reload_trace {σ : Type} (rr : RegisterInterface σ) (j : Job)
    (d : Duration) (w : World σ) :
    (RegisterJob rr j d true w).2.registerCalls =
      w.registerCalls ++ [{ job := j, timeUntilStart := d, isReload := true }] ∧
    (RegisterJob rr j d true w).2.timers =
      w.timers ++
        (RegisterCall.reloadTimer { job := j, timeUntilStart := d, isReload := true }).toList := by
  rw [RegisterJob_reload_eq]
  unfold RegisterCall.reloadTimer
  by_cases hok : (SetCronFrequency j).2 = none
  · by_cases hd : d > 0
    · simp [hok, hd, World.enterRegisterJob, World.afterFunc]
    · simp [hok, hd, World.enterRegisterJob]
  · simp [hok, World.enterRegisterJob]

theorem filterMap_reloadTimer_cons (c : RegisterCall) (cs : List RegisterCall) :
    (c :: cs).filterMap RegisterCall.reloadTimer =
      (RegisterCall.reloadTimer c).toList ++ cs.filterMap RegisterCall.reloadTimer := by
  rw [List.filterMap_cons]
  cases RegisterCall.reloadTimer c <;> rfl

theorem reloadLoop_trace {σ : Type} (env : Env) (rr : RegisterInterface σ) (now : Time)
    (jobs : List Job) (w : World σ) :
    ∃ (processed rest : List Job) (calls : List RegisterCall),
      jobs = processed ++ rest ∧
      (reloadLoop env rr now jobs w).2.registerCalls = w.registerCalls ++ calls ∧
      (reloadLoop env rr now jobs w).2.timers =
        w.timers ++ calls.filterMap RegisterCall.reloadTimer ∧
      List.Forall₂
        (fun c job => c.isReload = true ∧
          c.job = { job with Schedule := c.job.Schedule, CronTime := c.job.CronTime } ∧
          (job.Schedule.Before now = false → c.job = job))
        calls processed ∧
      ((reloadLoop env rr now jobs w).1 = none → rest = []) ∧
      ((reloadLoop env rr now jobs w).1 ≠ none →
        ∃ bad tail, rest = bad :: tail ∧ bad.Schedule.Before now = true ∧
          (bad.Occurrences > 0 ∨ bad.Occurrences = -1) ∧
          IsValidFrequency bad.Frequency ≠ none) := by
  induction jobs generalizing w with
  | nil =>
    refine ⟨[], [], [], rfl, by simp [reloadLoop], by simp [reloadLoop], List.Forall₂.nil,
      fun _ => rfl, fun h => ?_⟩
    simp [reloadLoop] at h
  | cons job rest ih =>
    have key : ∀ (job2 : Job) (d : Duration) (w4 : World σ),
        w4.registerCalls = w.registerCalls → w4.timers = w.timers →
        job2 = { job with Schedule := job2.Schedule, CronTime := job2.CronTime } →
        (job.Schedule.Before now = false → job2 = job) →
        ∃ (processed rest1 : List Job) (calls : List RegisterCall),
          job :: rest = processed ++ rest1 ∧
          (reloadLoop env rr now rest (RegisterJob rr job2 d true w4).2).2.registerCalls =
            w.registerCalls ++ calls ∧
          (reloadLoop env rr now rest (RegisterJob rr job2 d true w4).2).2.timers =
            w.timers ++ calls.filterMap RegisterCall.reloadTimer ∧
          List.Forall₂
            (fun c job => c.isReload = true ∧
              c.job = { job with Schedule := c.job.Schedule, CronTime := c.job.CronTime } ∧
              (job.Schedule.Before now = false → c.job = job))
            calls processed ∧
          ((reloadLoop env rr now rest (RegisterJob rr job2 d true w4).2).1 = none →
            rest1 = []) ∧
          ((reloadLoop env rr now rest (RegisterJob rr job2 d true w4).2).1 ≠ none →
            ∃ bad tail, rest1 = bad :: tail ∧ bad.Schedule.Before now = true ∧
              (bad.Occurrences > 0 ∨ bad.Occurrences = -1) ∧
              IsValidFrequency bad.Frequency ≠ none) := by
      intro job2 d w4 hr ht hj2 hfut
      obtain ⟨t1, t2⟩ := RegisterJob_reload_trace rr job2 d w4
      obtain ⟨p, r, cs, hp, hc, htm, hf, hn, he⟩ := ih (RegisterJob rr job2 d true w4).2
      refine ⟨job :: p, r, { job := job2, timeUntilStart := d, isReload := true } :: cs,
        ?_, ?_, ?_, ?_, hn, he⟩
      · rw [hp]; rfl
      · rw [hc, t1, hr, List.append_assoc]; rfl
      · rw [htm, t2, ht, filterMap_reloadTimer_cons, List.append_assoc]
      · exact List.Forall₂.cons ⟨rfl, hj2, hfut⟩ hf
    simp only [reloadLoop]
    split_ifs with hb
    · split
      · rename_i e heq
        refine ⟨[], job :: rest, [], rfl, by simp [World.timeUntil, World.now],
          by simp [World.timeUntil, World.now], List.Forall₂.nil, fun h => ?_, fun _ => ?_⟩
        · simp at h
        · have herr := SetCronFrequency_error
            { job with Schedule :=
                Time.In (calculateNextValidSchedule env.loc (World.now env w).1 job).1 env.loc }
            (by rw [heq]; simp)
          exact ⟨job, rest, rfl, hb, herr.1, herr.2⟩
      · rename_i job2 heq
        have hfields := SetCronFrequency_fields
          { job with Schedule :=
              Time.In (calculateNextValidSchedule env.loc (World.now env w).1 job).1 env.loc }
        rw [heq] at hfields
        simp only at hfields
        refine key job2 _ _ rfl rfl ?_ ?_
        · rw [hfields]
        · intro hfalse
          rw [hb] at hfalse
          cases hfalse
    · exact key job _ _ rfl rfl rfl (fun _ => rfl)

theorem GetJobs_trace {σ : Type} (rr : RegisterInterface σ) (w : World σ) :
    (GetJobs rr w).2.registerCalls = w.registerCalls ∧ (GetJobs rr w).2.timers = w.timers ∧
    (GetJobs rr w).1.2 = (rr.RetrieveJobs w.db).1.2 ∧
    ((rr.RetrieveJobs w.db).1.2 = none → (GetJobs rr w).1.1 = (rr.RetrieveJobs w.db).1.1) := by
  unfold GetJobs World.callRetrieveJobs
  rcases hr : rr.RetrieveJobs w.db with ⟨⟨jobs, err⟩, db1⟩
  cases err
  · exact ⟨rfl, rfl, rfl, fun _ => rfl⟩
  · exact ⟨rfl, rfl, rfl, fun h => by simp at h⟩

theorem ReloadJobs_eq_reloadLoop {σ : Type} (env : Env) (rr : RegisterInterface σ) (w : World σ)
    (hok : (rr.RetrieveJobs w.db).1.2 = none) :
    ReloadJobs env rr w =
      reloadLoop env rr (World.now env (GetJobs rr w).2).1 (rr.RetrieveJobs w.db).1.1
        (World.now env (GetJobs rr w).2).2 := by
  obtain ⟨_, _, h3, h4⟩ := GetJobs_trace rr w
  rw [← h4 hok]
  rw [hok] at h3
  unfold ReloadJobs
  rcases hget : GetJobs rr w with ⟨⟨jobs, err⟩, w1⟩
  rw [hget] at h3
  simp only at h3
  subst h3
  rfl

theorem reload_call_IDs_eq (now : Time) (calls : List RegisterCall) (processed : List Job)
    (h : List.Forall₂
      (fun c job => c.isReload = true ∧
        c.job = { job with Schedule := c.job.Schedule, CronTime := c.job.CronTime } ∧
        (job.Schedule.Before now = false → c.job = job))
      calls processed) :
    calls.map (fun c => c.job.ID) = processed.map (fun j => j.ID) := by
  induction h with
  | nil => rfl
  | cons hhead _ ih =>
    rw [List.map_cons, List.map_cons, ih]
    congr 1
    rw [hhead.2.1]

theorem reload_call_IDs_nodup (now : Time) (jobs processed rest : List Job)
    (calls : List RegisterCall) (hnd : (jobs.map (fun j => j.ID)).Nodup)
    (hsplit : jobs = processed ++ rest)
    (h : List.Forall₂
      (fun c job => c.isReload = true ∧
        c.job = { job with Schedule := c.job.Schedule, CronTime := c.job.CronTime } ∧
        (job.Schedule.Before now = false → c.job = job))
      calls processed) :
    (calls.map (fun c => c.job.ID)).Nodup := by
  rw [reload_call_IDs_eq now calls processed h]
  rw [hsplit, List.map_append] at hnd
  exact (List.nodup_append.mp hnd).1

theorem ReloadJobs_trace {σ : Type} (env : Env) (rr : RegisterInterface σ) (w : World σ)
    (hok : (rr.RetrieveJobs w.db).1.2 = none) :
    ∃ (processed rest : List Job) (calls : List RegisterCall),
      (rr.RetrieveJobs w.db).1.1 = processed ++ rest ∧
      (ReloadJobs env rr w).2.registerCalls = w.registerCalls ++ calls ∧
      (ReloadJobs env rr w).2.timers = w.timers ++ calls.filterMap RegisterCall.reloadTimer ∧
      List.Forall₂
        (fun c job => c.isReload = true ∧
          c.job = { job with Schedule := c.job.Schedule, CronTime := c.job.CronTime } ∧
          (job.Schedule.Before (World.now env (GetJobs rr w).2).1 = false → c.job = job))
        calls processed ∧
      ((ReloadJobs env rr w).1 = none → rest = []) ∧
      ((ReloadJobs env rr w).1 ≠ none →
        ∃ bad tail, rest = bad :: tail ∧
          bad.Schedule.Before (World.now env (GetJobs rr w).2).1 = true ∧
          (bad.Occurrences > 0 ∨ bad.Occurrences = -1) ∧
          IsValidFrequency bad.Frequency ≠ none) := by
  obtain ⟨g1, g2, _, _⟩ := GetJobs_trace rr w
  obtain ⟨p, r, cs, hp, hc, ht, hf, hn, he⟩ :=
    reloadLoop_trace env rr (World.now env (GetJobs rr w).2).1 (rr.RetrieveJobs w.db).1.1
      (World.now env (GetJobs rr w).2).2
  rw [← ReloadJobs_eq_reloadLoop env rr w hok] at hc ht hn he
  have h1 : (World.now env (GetJobs rr w).2).2.registerCalls = w.registerCalls := g1
  have h2 : (World.now env (GetJobs rr w).2).2.timers = w.timers := g2
  rw [h1] at hc
  rw [h2] at ht
  exact ⟨p, r, cs, hp, hc, ht, hf, hn, he⟩

/-- C19.  `RetrieveJobs` groups the joined rows by job identifier: whatever the
rows, the list it builds holds every identifier that occurs among the rows
exactly once, and each job carries one task per row of its identifier whose
task columns are not NULL, in row order.  A reload pass arms its deferred
triggers in the order of the list and at most one for each element, so no two
triggers it arms carry the same job identifier; this holds for the list in
any order.  The calls of `RegisterJob` that the pass makes are, in the order of
the list, exactly one for each element of the part `processed` of the list
that it processes, every one with `isReload = true` and with the element
itself (for a schedule that is not in the past) or the element with a new
schedule and recurrence expression (for a schedule in the past), so no two
calls carry the same job identifier; `processed` is the whole list when the
pass returns no error, and otherwise it ends before the element of a past
schedule at which `SetCronFrequency` failed; the triggers the pass arms are
exactly the ones these calls arm, a call with `isReload = true` arming the
trigger `RegisterCall.reloadTimer` and being recorded once. -/
theorem C19_reload_arms_at_most_one_trigger_per_job (env : Env) (localLoc : Int) (w : World DB)
    (rows : List JoinedRow) :
    ((RegisterRepository.scanRows rows).map (fun j => j.ID)).Nodup ∧
    (∀ id, id ∈ (RegisterRepository.scanRows rows).map (fun j => j.ID) ↔
      id ∈ rows.map (fun r => r.id)) ∧
    (∀ j ∈ RegisterRepository.scanRows rows, j.Workflow = tasksOf rows j.ID) ∧
    RegisterRepository.RetrieveJobs w.db =
      ((RegisterRepository.scanRows w.db.getJobs, none), w.db) ∧
    (∃ new : List Timer,
      (ReloadJobs env (NewRegisterRepository localLoc) w).2.timers = w.timers ++ new ∧
      List.Sublist (new.map (fun t => t.job.ID))
        ((RegisterRepository.scanRows w.db.getJobs).map (fun j => j.ID)) ∧
      (new.map (fun t => t.job.ID)).Nodup) ∧
    (∀ (jobs : List Job) (now : Time) (w1 : World DB),
      jobs.Perm (RegisterRepository.scanRows rows) →
      ∃ new : List Timer,
        (reloadLoop env (NewRegisterRepository localLoc) now jobs w1).2.timers =
          w1.timers ++ new ∧
        List.Sublist (new.map (fun t => t.job.ID)) (jobs.map (fun j => j.ID)) ∧
        (new.map (fun t => t.job.ID)).Nodup) ∧
    (∃ (processed rest : List Job) (calls : List RegisterCall),
      RegisterRepository.scanRows w.db.getJobs = processed ++ rest ∧
      (ReloadJobs env (NewRegisterRepository localLoc) w).2.registerCalls =
        w.registerCalls ++ calls ∧
      (ReloadJobs env (NewRegisterRepository localLoc) w).2.timers =
        w.timers ++ calls.filterMap RegisterCall.reloadTimer ∧
      List.Forall₂
        (fun c job => c.isReload = true ∧
          c.job = { job with Schedule := c.job.Schedule, CronTime := c.job.CronTime } ∧
          (job.Schedule.Before
              (World.now env (GetJobs (NewRegisterRepository localLoc) w).2).1 = false →
            c.job = job))
        calls processed ∧
      (calls.map (fun c => c.job.ID)).Nodup ∧
      ((ReloadJobs env (NewRegisterRepository localLoc) w).1 = none → rest = []) ∧
      ((ReloadJobs env (NewRegisterRepository localLoc) w).1 ≠ none →
        ∃ bad tail, rest = bad :: tail ∧
          bad.Schedule.Before
            (World.now env (GetJobs (NewRegisterRepository localLoc) w).2).1 = true ∧
          (bad.Occurrences > 0 ∨ bad.Occurrences = -1) ∧
          IsValidFrequency bad.Frequency ≠ none)) ∧
    (∀ (jobs : List Job) (now : Time) (w1 : World DB),
      jobs.Perm (RegisterRepository.scanRows rows) →
      ∃ (processed rest : List Job) (calls : List RegisterCall),
        jobs = processed ++ rest ∧
        (reloadLoop env (NewRegisterRepository localLoc) now jobs w1).2.registerCalls =
          w1.registerCalls ++ calls ∧
        (reloadLoop env (NewRegisterRepository localLoc) now jobs w1).2.timers =
          w1.timers ++ calls.filterMap RegisterCall.reloadTimer ∧
        List.Forall₂
          (fun c job => c.isReload = true ∧
            c.job = { job with Schedule := c.job.Schedule, CronTime := c.job.CronTime } ∧
            (job.Schedule.Before now = false → c.job = job))
          calls processed ∧
        (calls.map (fun c => c.job.ID)).Nodup ∧
        ((reloadLoop env (NewRegisterRepository localLoc) now jobs w1).1 = none → rest = []) ∧
        ((reloadLoop env (NewRegisterRepository localLoc) now jobs w1).1 ≠ none →
          ∃ bad tail, rest = bad :: tail ∧ bad.Schedule.Before now = true ∧
            (bad.Occurrences > 0 ∨ bad.Occurrences = -1) ∧
            IsValidFrequency bad.Frequency ≠ none)) ∧
    (∀ (j : Job) (d : Duration) (w1 : World DB),
      (RegisterJob (NewRegisterRepository localLoc) j d true w1).2.registerCalls =
        w1.registerCalls ++ [{ job := j, timeUntilStart := d, isReload := true }] ∧
      (RegisterJob (NewRegisterRepository localLoc) j d true w1).2.timers =
        w1.timers ++
          (RegisterCall.reloadTimer { job := j, timeUntilStart := d, isReload := true }).toList ∧
      (RegisterCall.reloadTimer { job := j, timeUntilStart := d, isReload := true } =
        if (SetCronFrequency j).2 = none ∧ d > 0 then
          some { delay := d, job := { j with CronTime := (SetCronFrequency j).1.CronTime } }
        else none)) := by
  obtain ⟨hnd, hkeys, hflow⟩ := scanRows_grouped rows
  refine ⟨hnd, hkeys, hflow, rfl, ?_, ?_, ?_, ?_, ?_⟩
  · obtain ⟨new, h1, s1⟩ := ReloadJobs_timers env (NewRegisterRepository localLoc) w
    exact ⟨new, h1, s1, List.Nodup.sublist s1 (scanRows_grouped w.db.getJobs).1⟩
  · intro jobs now w1 hperm
    obtain ⟨new, h1, s1⟩ := reloadLoop_timers env (NewRegisterRepository localLoc) now jobs w1
    refine ⟨new, h1, s1, List.Nodup.sublist s1 ?_⟩
    exact (List.Perm.nodup_iff (List.Perm.map (fun j => j.ID) hperm)).mpr hnd
  · obtain ⟨p, r, cs, hp, hc, ht, hf, hn, he⟩ :=
      ReloadJobs_trace env (NewRegisterRepository localLoc) w rfl
    exact ⟨p, r, cs, hp, hc, ht, hf,
      reload_call_IDs_nodup _ _ p r cs (scanRows_grouped w.db.getJobs).1 hp hf, hn, he⟩
  · intro jobs now w1 hperm
    obtain ⟨p, r, cs, hp, hc, ht, hf, hn, he⟩ :=
      reloadLoop_trace env (NewRegisterRepository localLoc) now jobs w1
    refine ⟨p, r, cs, hp, hc, ht, hf, reload_call_IDs_nodup now jobs p r cs ?_ hp hf, hn, he⟩
    exact (List.Perm.nodup_iff (List.Perm.map (fun j => j.ID) hperm)).mpr hnd
  · intro j d w1
    refine ⟨(RegisterJob_reload_trace _ j d w1).1, (RegisterJob_reload_trace _ j d w1).2, ?_⟩
    unfold RegisterCall.reloadTimer
    simp only
    rw [← SetCronFrequency_fields j]

/-! ## What the reload branch of `RegisterJob` returns -/

/-- Counterexample to C9: `quarterlyFutureDB` holds the job 7, whose frequency is
`"Q"` and whose schedule is an hour ahead.  The reload pass calls `RegisterJob`
once, with `isReload = true`, on that job as `RetrieveJobs` returns it, and
this call returns `0` and an error, not the identifier 7, in whatever state it
is made. -/
theorem C9_reload_of_bad_frequency_returns_zero :
    (RegisterRepository.RetrieveJobs quarterlyFutureDB).1 = ([quarterlyFutureJob], none) ∧
    (ReloadJobs envMonday15 (NewRegisterRepository 0)
        (World.init quarterlyFutureDB)).2.registerCalls =
      [{ job := quarterlyFutureJob, timeUntilStart := Hour - 1000, isReload := true }] ∧
    quarterlyFutureJob.ID = 7 ∧
    (RegisterJob (NewRegisterRepository 0) quarterlyFutureJob (Hour - 1000) true
        (World.init quarterlyFutureDB)).1 = (0, some "could not reset cron frequency") ∧
    ∀ w : World DB,
      (RegisterJob (NewRegisterRepository 0) quarterlyFutureJob (Hour - 1000) true w).1 =
        (0, some "could not reset cron frequency") := by
  refine ⟨by decide, by decide, by decide, by decide, fun w => ?_⟩
  have hbad : (SetCronFrequency quarterlyFutureJob).2 ≠ none := by decide
  rw [RegisterJob_reload_eq, if_neg hbad]

/-- C9, amended.  A `ReloadJobs` pass makes exactly one call on the repository,
`RetrieveJobs`, and so no call of its insert operation `RegisterJob`; the
usecase's `RegisterJob` called with `isReload = true` makes no call on the
repository and leaves storage as it is; it returns the job's existing
identifier without error when `SetCronFrequency` succeeds for the job, and `0`
with the error that the recurrence expression could not be set when
`SetCronFrequency` fails for it, which is when the occurrence count is positive
or `-1` and the frequency is none of the six codes. -/
theorem C9_reload_never_inserts {σ : Type} (env : Env) (rr : RegisterInterface σ)
    (w : World σ) :
    (ReloadJobs env rr w).2.calls = w.calls ++ [RepoCall.RetrieveJobs] ∧
    (ReloadJobs env rr w).2.calls.filter RepoCall.isInsert = w.calls.filter RepoCall.isInsert ∧
    ∀ (j : Job) (d : Duration) (w1 : World σ),
      (RegisterJob rr j d true w1).2.calls = w1.calls ∧
      (RegisterJob rr j d true w1).2.db = w1.db ∧
      ((RegisterJob rr j d true w1).1 = (j.ID, none) ∨
        (RegisterJob rr j d true w1).1 = (0, some "could not reset cron frequency")) ∧
      ((SetCronFrequency j).2 = none → (RegisterJob rr j d true w1).1 = (j.ID, none)) ∧
      ((SetCronFrequency j).2 ≠ none →
        (RegisterJob rr j d true w1).1 = (0, some "could not reset cron frequency")) ∧
      ((SetCronFrequency j).2 ≠ none ↔
        ((j.Occurrences > 0 ∨ j.Occurrences = -1) ∧ IsValidFrequency j.Frequency ≠ none)) := by
  have hcalls : (ReloadJobs env rr w).2.calls = w.calls ++ [RepoCall.RetrieveJobs] := by
    have hg := GetJobs_calls rr w
    unfold ReloadJobs
    rcases hget : GetJobs rr w with ⟨⟨jobs, err⟩, w1⟩
    rw [hget] at hg
    cases err with
    | some e => exact hg
    | none =>
      simp only
      rw [(reloadLoop_frame env rr _ _ _).1]
      exact hg
  refine ⟨hcalls, ?_, ?_⟩
  · rw [hcalls, List.filter_append]
    simp [RepoCall.isInsert]
  · intro j d w1
    have hid : (SetCronFrequency j).1.ID = j.ID := by rw [SetCronFrequency_fields j]
    have hgood : (SetCronFrequency j).2 = none → (RegisterJob rr j d true w1).1 = (j.ID, none) := by
      intro hok
      rw [RegisterJob_reload_eq, if_pos hok, hid]
    have hfail : (SetCronFrequency j).2 ≠ none →
        (RegisterJob rr j d true w1).1 = (0, some "could not reset cron frequency") := by
      intro hbad
      rw [RegisterJob_reload_eq, if_neg hbad]
    refine ⟨(RegisterJob_reload_frame rr j d w1).1, (RegisterJob_reload_frame rr j d w1).2,
      ?_, hgood, hfail, SetCronFrequency_error j, ?_⟩
    · by_cases hok : (SetCronFrequency j).2 = none
      · exact Or.inl (hgood hok)
      · exact Or.inr (hfail hok)
    · rintro ⟨hocc, hbad⟩
      obtain ⟨e, he⟩ := SetCronFrequency_bad_frequency j hocc hbad
      rw [he]
      simp

end Scheduler
